import Mathlib

/-!
Verification development for the SVG-to-Excalidraw converter.

The TypeScript sources are shallowly embedded: numbers are modelled by `ℚ`
(exact rationals standing in for IEEE doubles on the finite inputs the
claims concern), JS strings by `String`, JS `Map`s by association lists
with last-write-wins lookup, and the DOM's upward `parentElement` pointers
by an explicit ancestor list (nearest ancestor first).  External library
calls (`points-on-path`'s `pointsOnPath`, `transformation-matrix`'s
attribute parser) are modelled by injected outcome fields on the node:
`none` stands for the library call throwing, `some v` for it returning
`v`; the repository's own `try`/`catch` and null-check structure around
those calls is translated faithfully.
-/

namespace SvgToExc

/-- `Point` from `geometry.ts`: `type Point = [number, number]`. -/
abbrev Pt : Type := ℚ × ℚ

/-- `BoundingBox` from `geometry.ts`. -/
structure BoundingBox where
  minX : ℚ
  minY : ℚ
  maxX : ℚ
  maxY : ℚ
deriving DecidableEq, Repr

/-- Winding direction strings `"clockwise"` / `"counter-clockwise"` of
`geometry.ts`, modelled as a two-element inductive. -/
inductive Winding where
  | clockwise
  | counterclockwise
deriving DecidableEq, Repr

/-- One term of the loop body shared by `getWindingOrder` and
`getPolygonArea`: `(x2 - x1) * (y2 + y1)`. -/
def shoelaceTerm (p q : Pt) : ℚ :=
  (q.1 - p.1) * (q.2 + p.2)

/-- The summation loop shared verbatim by `getWindingOrder` and
`getPolygonArea` in `geometry.ts`: for each index `i` it pairs
`points[i]` with `points[(i + 1) % points.length]`.  Pairing index `i`
with index `(i + 1) % n` is exactly zipping the list with its rotation
by one. -/
def shoelaceSum (points : List Pt) : ℚ :=
  ((points.zip (points.rotate 1)).map fun pq => shoelaceTerm pq.1 pq.2).sum

/-- `WindingOrder` record of `geometry.ts`. -/
structure WindingOrder where
  direction : Winding
  signedArea : ℚ
deriving DecidableEq, Repr

/-- `getWindingOrder` from `geometry.ts`: clockwise iff the raw shoelace
sum is positive. -/
def getWindingOrder (points : List Pt) : WindingOrder :=
  { direction := if shoelaceSum points > 0 then Winding.clockwise else Winding.counterclockwise
    signedArea := shoelaceSum points }

/-- `getPolygonArea` from `geometry.ts`: its loop is identical to
`getWindingOrder`'s, then `Math.abs(sum / 2)`. -/
def getPolygonArea (points : List Pt) : ℚ :=
  |shoelaceSum points / 2|

/-- `getBoundingBox` from `geometry.ts`.  The source folds min/max over
all points starting from `±Infinity`; over a nonempty list that equals
folding over the tail starting from the first point, which is how the
infinite sentinels are rendered here. -/
def getBoundingBox : List Pt → BoundingBox
  | [] => { minX := 0, minY := 0, maxX := 0, maxY := 0 }
  | p :: t =>
    t.foldl
      (fun bb q =>
        { minX := min bb.minX q.1, minY := min bb.minY q.2
          maxX := max bb.maxX q.1, maxY := max bb.maxY q.2 })
      { minX := p.1, minY := p.2, maxX := p.1, maxY := p.2 }

/-- `dimensionsFromPoints` from `geometry.ts`: its min/max loop is the
same as `getBoundingBox`'s, and it returns `[0, 0]` for empty input,
which the shared bounding box also yields. -/
def dimensionsFromPoints (points : List Pt) : Pt :=
  let bb := getBoundingBox points
  (bb.maxX - bb.minX, bb.maxY - bb.minY)

/-- `isContainedIn` from `geometry.ts`. -/
def isContainedIn (boxA boxB : BoundingBox) : Bool :=
  let centerX := (boxA.minX + boxA.maxX) / 2
  let centerY := (boxA.minY + boxA.maxY) / 2
  let tolerance : ℚ := 2
  let centerInside :=
    centerX ≥ boxB.minX - tolerance ∧ centerX ≤ boxB.maxX + tolerance ∧
    centerY ≥ boxB.minY - tolerance ∧ centerY ≤ boxB.maxY + tolerance
  let areaA := (boxA.maxX - boxA.minX) * (boxA.maxY - boxA.minY)
  let areaB := (boxB.maxX - boxB.minX) * (boxB.maxY - boxB.minY)
  decide (centerInside ∧ areaA < areaB * (9 / 10))

/-- Flip of a winding direction. -/
def flipWinding : Winding → Winding
  | Winding.clockwise => Winding.counterclockwise
  | Winding.counterclockwise => Winding.clockwise

/-- Open-chain shoelace sum over consecutive pairs only (no wraparound
edge); proof-side decomposition of `shoelaceSum`. -/
def segSum : List Pt → ℚ
  | [] => 0
  | [_] => 0
  | p :: q :: t => shoelaceTerm p q + segSum (q :: t)

theorem shoelaceTerm_swap (p q : Pt) : shoelaceTerm q p = -shoelaceTerm p q := by
  simp only [shoelaceTerm]
  ring

theorem segSum_zip_append (l : List Pt) :
    ∀ (a z : Pt),
      (((a :: l).zip (l ++ [z])).map fun pq => shoelaceTerm pq.1 pq.2).sum
        = segSum (a :: l) + shoelaceTerm (l.getLastD a) z := by
  induction l with
  | nil =>
    intro a z
    simp [segSum, List.zip]
  | cons b t ih =>
    intro a z
    have h := ih b z
    simp only [List.cons_append, List.zip_cons_cons, List.map_cons, List.sum_cons]
    rw [h, List.getLastD_cons]
    have h2 : segSum (a :: b :: t) = shoelaceTerm a b + segSum (b :: t) := rfl
    rw [h2]
    ring

theorem shoelaceSum_cons_eq (a : Pt) (l : List Pt) :
    shoelaceSum (a :: l) = segSum (a :: l) + shoelaceTerm (l.getLastD a) a := by
  have hrot : (a :: l).rotate 1 = l ++ [a] := by
    simpa using List.rotate_cons_succ l a 0
  rw [shoelaceSum, hrot, segSum_zip_append]

theorem segSum_append_singleton :
    ∀ (l : List Pt) (z : Pt), segSum (l ++ [z])
      = segSum l + (if l.isEmpty then 0 else shoelaceTerm (l.getLastD z) z)
  | [], z => by simp [segSum]
  | [a], z => by simp [segSum, List.getLastD]
  | a :: b :: t, z => by
    have ih := segSum_append_singleton (b :: t) z
    have h1 : segSum ((a :: b :: t) ++ [z]) = shoelaceTerm a b + segSum ((b :: t) ++ [z]) := rfl
    have h2 : segSum (a :: b :: t) = shoelaceTerm a b + segSum (b :: t) := rfl
    rw [h1, ih, h2]
    simp only [List.isEmpty_cons, List.getLastD_cons, if_neg, Bool.false_eq_true,
      not_false_iff]
    ring

theorem segSum_reverse (l : List Pt) : segSum l.reverse = -segSum l := by
  induction l with
  | nil => simp [segSum]
  | cons a t ih =>
    cases t with
    | nil => simp [segSum]
    | cons b t' =>
      have hrev : (a :: b :: t').reverse = (b :: t').reverse ++ [a] := by
        simp
      rw [hrev, segSum_append_singleton]
      have hne : ((b :: t').reverse).isEmpty = false := by
        simp [List.isEmpty_iff]
      rw [hne]
      have hlast : ((b :: t').reverse).getLastD a = b := by
        have : (b :: t').reverse = t'.reverse ++ [b] := by simp
        rw [this]
        simp [List.getLastD_eq_getLast?]
      rw [if_neg (by simp), hlast, ih]
      show -segSum (b :: t') + shoelaceTerm b a = -(shoelaceTerm a b + segSum (b :: t'))
      rw [shoelaceTerm_swap]
      ring

theorem shoelaceSum_eq_segSum (l : List Pt) (hl : l ≠ []) (d : Pt) :
    shoelaceSum l = segSum l + shoelaceTerm (l.getLastD d) (l.headD d) := by
  cases l with
  | nil => exact absurd rfl hl
  | cons a t =>
    rw [shoelaceSum_cons_eq]
    simp only [List.headD_cons, List.getLastD_cons]

theorem shoelaceSum_reverse (l : List Pt) : shoelaceSum l.reverse = -shoelaceSum l := by
  cases l with
  | nil => simp [shoelaceSum]
  | cons a t =>
    have h1 : (a :: t) ≠ [] := by simp
    have h2 : (a :: t).reverse ≠ [] := by simp
    rw [shoelaceSum_eq_segSum _ h2 a, shoelaceSum_eq_segSum _ h1 a, segSum_reverse]
    rw [List.getLastD_eq_getLast?, List.headD_eq_head?, List.getLast?_reverse,
      List.head?_reverse, List.getLastD_eq_getLast?, List.headD_eq_head?]
    rw [shoelaceTerm_swap]
    ring

/-! ## Transform resolver (`transform.ts`) -/

/-- Affine `Matrix` of the `transformation-matrix` library:
`x' = a*x + c*y + e`, `y' = b*x + d*y + f`. -/
structure Matrix where
  a : ℚ
  b : ℚ
  c : ℚ
  d : ℚ
  e : ℚ
  f : ℚ
deriving DecidableEq, Repr

/-- The library's `identity()`. -/
def identityM : Matrix :=
  { a := 1, b := 0, c := 0, d := 1, e := 0, f := 0 }

/-- The library's binary matrix product (`compose` of two matrices);
the right factor is applied to points first. -/
def composePair (m1 m2 : Matrix) : Matrix :=
  { a := m1.a * m2.a + m1.c * m2.b
    b := m1.b * m2.a + m1.d * m2.b
    c := m1.a * m2.c + m1.c * m2.d
    d := m1.b * m2.c + m1.d * m2.d
    e := m1.a * m2.e + m1.c * m2.f + m1.e
    f := m1.b * m2.e + m1.d * m2.f + m1.f }

/-- The library's variadic `compose(matrices)`, applied in the source
only to nonempty lists; folds the product left to right. -/
def composeList : List Matrix → Matrix
  | [] => identityM
  | m :: t => t.foldl composePair m

/-- `applyToPoint` of the `transformation-matrix` library. -/
def applyToPoint (m : Matrix) (p : Pt) : Pt :=
  (m.a * p.1 + m.c * p.2 + m.e, m.b * p.1 + m.d * p.2 + m.f)

/-- `transformPoint` from `transform.ts`. -/
def transformPoint (p : Pt) (m : Matrix) : Pt :=
  applyToPoint m p

/-- `transformPoints` from `transform.ts`. -/
def transformPoints (points : List Pt) (m : Matrix) : List Pt :=
  points.map fun p => transformPoint p m

/-! ## Input node model

A DOM element is modelled by its tag, attribute list, text content and
children, plus the outcomes of the two external parser libraries invoked
on it: `transformMatrices` is the result of
`fromDefinition(fromTransformAttribute(transform))` (`none` when that
call throws), and `pathPoints` is the result of `pointsOnPath(d)`
(`none` when it throws).  The DOM's `parentElement` chain is passed to
each function explicitly as `anc`, the list of ancestors nearest first. -/

inductive Node where
  | node (tag : String) (attrs : List (String × String)) (textContent : String)
      (transformMatrices : Option (List Matrix))
      (pathPoints : Option (List (List Pt)))
      (children : List Node)

/-- Tag name accessor (`element.tagName`). -/
def Node.tag : Node → String
  | .node t _ _ _ _ _ => t

/-- Attribute list accessor. -/
def Node.attrs : Node → List (String × String)
  | .node _ a _ _ _ _ => a

/-- Text content accessor (`element.textContent`). -/
def Node.textContent : Node → String
  | .node _ _ tc _ _ _ => tc

/-- Outcome of the external transform-attribute parser for this node. -/
def Node.transformMatrices : Node → Option (List Matrix)
  | .node _ _ _ tm _ _ => tm

/-- Outcome of the external `pointsOnPath` flattener for this node's
`d` attribute. -/
def Node.pathPoints : Node → Option (List (List Pt))
  | .node _ _ _ _ pp _ => pp

/-- Children accessor. -/
def Node.children : Node → List Node
  | .node _ _ _ _ _ cs => cs

/-- `element.getAttribute(name)`: `none` models DOM `null`. -/
def getAttr (n : Node) (name : String) : Option String :=
  n.attrs.lookup name

/-! Preorder traversal collecting every strict descendant paired with
its ancestor chain (nearest ancestor first).  Models the document-order
node lists produced by `querySelectorAll` together with the upward
`parentElement` pointers. -/

mutual

def collectNode (anc : List Node) : Node → List (Node × List Node)
  | .node t a tc tm pp cs =>
    (Node.node t a tc tm pp cs, anc) ::
      collectChildren (Node.node t a tc tm pp cs :: anc) cs

def collectChildren (anc : List Node) : List Node → List (Node × List Node)
  | [] => []
  | c :: cs => collectNode anc c ++ collectChildren anc cs

end

/-- Strict descendants of a node in document order. -/
def descendantsOf (n : Node) : List Node :=
  (collectChildren [n] n.children).map fun x => x.1

/-- `getTransformMatrix` from `transform.ts`: absent or empty transform
attribute yields the identity; a throwing parse (modelled by
`transformMatrices = none`) is caught and yields the identity; an empty
parsed list yields the identity. -/
def getTransformMatrix (el : Node) : Matrix :=
  match getAttr el "transform" with
  | none => identityM
  | some raw =>
    if raw = "" then identityM
    else
      match el.transformMatrices with
      | none => identityM
      | some ms => if ms.isEmpty then identityM else composeList ms

/-- `getAccumulatedTransform` from `transform.ts`: walk from the element
upward, stop at the first `svg`-tagged element (excluded), `unshift`
each own matrix (so the outermost ancestor ends up first) and compose. -/
def getAccumulatedTransform (el : Node) (anc : List Node) : Matrix :=
  let chain := (el :: anc).takeWhile fun n => n.tag.toLower ≠ "svg"
  let matrices := (chain.map getTransformMatrix).reverse
  if matrices.isEmpty then identityM else composeList matrices

/-! ## Style resolver (`style.ts` and the inline-style parser of `convert.ts`) -/

/-- JS `Map` lookup where `Map.set` overwrote earlier entries: the model
appends writes in order, so the last write for a key wins. -/
def mget (m : List (String × String)) (k : String) : Option String :=
  m.reverse.lookup k

/-- `declaration.indexOf(":")` / `slice` pair: split a declaration at its
first colon; `none` when there is no colon. -/
def splitFirstColon (s : String) : Option (String × String) :=
  match s.splitOn ":" with
  | [] => none
  | [_] => none
  | k :: rest => some (k, String.intercalate ":" rest)

/-- `parseCssDeclarations` from `style.ts`: property lowercased, value
kept as written, empty keys or values skipped. -/
def parseCssDeclarations (cssText : String) : List (String × String) :=
  (cssText.splitOn ";").foldl
    (fun acc decl =>
      match splitFirstColon decl with
      | none => acc
      | some kv =>
        let property := kv.1.trim.toLower
        let value := kv.2.trim
        if property ≠ "" ∧ value ≠ "" then acc ++ [(property, value)] else acc)
    []

/-- `parseInlineStyle` from `convert.ts` (used by the visibility walk):
unlike `parseCssDeclarations` it lowercases the value as well. -/
def parseInlineStyle (styleText : Option String) : List (String × String) :=
  match styleText with
  | none => []
  | some s =>
    if s = "" then []
    else
      (s.splitOn ";").foldl
        (fun acc decl =>
          match splitFirstColon decl with
          | none => acc
          | some kv =>
            let key := kv.1.trim.toLower
            let value := kv.2.trim.toLower
            if key ≠ "" ∧ value ≠ "" then acc ++ [(key, value)] else acc)
        []

/-- Class-styles map of the `StyleContext`: class name to declaration
map.  The CSS `<style>`-block scraping that builds it in
`createStyleContext` is regex-driven and not itself under any claim, so
the map is taken as an input here; every theorem quantifies over it. -/
abbrev ClassStyles := List (String × List (String × String))

/-- `StyleContext` from `style.ts`. -/
structure StyleContext where
  svgRoot : Node
  classStyles : ClassStyles

/-- `getInlineStyleValue` from `style.ts`. -/
def getInlineStyleValue (el : Node) (property : String) : Option String :=
  match getAttr el "style" with
  | none => none
  | some s =>
    if s = "" then none else mget (parseCssDeclarations s) property.toLower

/-- Scan of the element's class list in `getClassStyleValue`: first class
whose rule map holds a truthy (nonempty) value for the property wins. -/
def classStylesHit (classStyles : ClassStyles) (propKey : String) : List String → Option String
  | [] => none
  | c :: rest =>
    match classStyles.lookup c with
    | none => classStylesHit classStyles propKey rest
    | some styleMap =>
      match mget styleMap propKey with
      | none => classStylesHit classStyles propKey rest
      | some v => if v = "" then classStylesHit classStyles propKey rest else some v

/-- `getClassStyleValue` from `style.ts`. -/
def getClassStyleValue (el : Node) (classStyles : ClassStyles) (property : String) :
    Option String :=
  match getAttr el "class" with
  | none => none
  | some cn =>
    if cn = "" then none
    else
      let classNames := (cn.split Char.isWhitespace).filter fun x => x ≠ ""
      classStylesHit classStyles property.toLower classNames

/-- `getInheritedPresentationValue` from `style.ts`: walk the ancestor
chain; on each ancestor the direct attribute is consulted first and the
inline style second, and the walk stops after the first `svg`-tagged
ancestor. -/
def getInheritedPresentationValue : List Node → String → Option String
  | [], _ => none
  | current :: rest, property =>
    let direct := (getAttr current property).getD ""
    if direct ≠ "" then some direct
    else
      let inline := (getInlineStyleValue current property).getD ""
      if inline ≠ "" then some inline
      else if current.tag.toLower = "svg" then none
      else getInheritedPresentationValue rest property

/-- `getPresentationValue` from `style.ts`: the four-step cascade joined
with null-coalescing (an empty-string attribute value passes through, as
`??` only skips `null`). -/
def getPresentationValue (el : Node) (anc : List Node) (classStyles : ClassStyles)
    (property : String) : Option String :=
  getInlineStyleValue el property <|> getAttr el property <|>
    getClassStyleValue el classStyles property <|>
      getInheritedPresentationValue anc property

/-- The `url(#id)` extraction regex of `resolveGradientUrl`, applied to
strings already known to start with `url(`: the id is the nonempty lazy
match between `url(#` and the first closing parenthesis. -/
def extractUrlId (s : String) : Option String :=
  if s.startsWith "url(#" then
    let rest := (s.drop 5).toList
    let idChars := rest.takeWhile fun c => c ≠ ')'
    if idChars.isEmpty ∨ idChars.length = rest.length then none
    else some (String.mk idChars)
  else none

/-- The first-gradient-stop scan of `resolveGradientUrl`: attribute
`stop-color` null-coalesced with the inline style, kept if truthy. -/
def firstStopColor : List Node → Option String
  | [] => none
  | s :: rest =>
    match getAttr s "stop-color" <|> getInlineStyleValue s "stop-color" with
    | some v => if v = "" then firstStopColor rest else some v
    | none => firstStopColor rest

/-- `resolveGradientUrl` from `style.ts`. -/
def resolveGradientUrl (urlRef : String) (svgRoot : Node) : Option String :=
  if ¬ urlRef.startsWith "url(" then none
  else
    match extractUrlId urlRef with
    | none => none
    | some gid =>
      match (descendantsOf svgRoot).find? (fun n => getAttr n "id" = some gid) with
      | none => none
      | some g => firstStopColor ((descendantsOf g).filter fun n => n.tag = "stop")

/-- `normalizeSvgColor` from `style.ts`. -/
def normalizeSvgColor (color : Option String) (fallback : String) (svgRoot : Node) : String :=
  match color with
  | none => fallback
  | some c =>
    let normalizedColor := c.trim
    if normalizedColor = "" then fallback
    else if normalizedColor = "none" then "transparent"
    else if normalizedColor.startsWith "url(" then
      (resolveGradientUrl normalizedColor svgRoot).getD fallback
    else normalizedColor

/-- `getFillColor` from `style.ts`. -/
def getFillColor (el : Node) (anc : List Node) (ctx : StyleContext) : String :=
  let fillColor := getPresentationValue el anc ctx.classStyles "fill"
  let fillColor :=
    if fillColor = none ∨ fillColor = some "" ∨ fillColor = some "none" then
      getClassStyleValue el ctx.classStyles "fill" <|> fillColor
    else fillColor
  normalizeSvgColor fillColor "#000000" ctx.svgRoot

/-- `getStrokeColor` from `style.ts`. -/
def getStrokeColor (el : Node) (anc : List Node) (ctx : StyleContext) : String :=
  let strokeColor := getPresentationValue el anc ctx.classStyles "stroke"
  let strokeColor :=
    if strokeColor = none ∨ strokeColor = some "" ∨ strokeColor = some "none" then
      getClassStyleValue el ctx.classStyles "stroke" <|> strokeColor
    else strokeColor
  normalizeSvgColor strokeColor "transparent" ctx.svgRoot

/-! Numeric parsing.  `Number.parseFloat` is modelled over `ℚ` for
finite plain decimal and scientific literals (optional sign, digits,
optional fraction, optional well-formed exponent; a malformed exponent
suffix is ignored, as `parseFloat` parses the longest valid prefix).
`none` models `NaN`; non-finite literals such as `Infinity` are outside
the model. -/

/-- Accumulate a digit run as a natural number. -/
def digitsVal (cs : List Char) : ℕ :=
  cs.foldl (fun n c => 10 * n + (c.toNat - 48)) 0

/-- Unsigned part of the `parseFloat` model. -/
def parseUnsignedQ (cs : List Char) : Option ℚ :=
  let intPart := cs.takeWhile Char.isDigit
  let rest1 := cs.drop intPart.length
  let fracPart :=
    match rest1 with
    | '.' :: r => r.takeWhile Char.isDigit
    | _ => []
  let rest2 :=
    match rest1 with
    | '.' :: r => r.drop (r.takeWhile Char.isDigit).length
    | _ => rest1
  if intPart.isEmpty ∧ fracPart.isEmpty then none
  else
    let base : ℚ := (digitsVal intPart : ℚ) + (digitsVal fracPart : ℚ) / (10 : ℚ) ^ fracPart.length
    let expVal : Option ℤ :=
      match rest2 with
      | 'e' :: r | 'E' :: r =>
        match r with
        | '-' :: ds =>
          let dd := ds.takeWhile Char.isDigit
          if dd.isEmpty then none else some (-(digitsVal dd : ℤ))
        | '+' :: ds =>
          let dd := ds.takeWhile Char.isDigit
          if dd.isEmpty then none else some (digitsVal dd : ℤ)
        | ds =>
          let dd := ds.takeWhile Char.isDigit
          if dd.isEmpty then none else some (digitsVal dd : ℤ)
      | _ => none
    match expVal with
    | some k => some (base * (10 : ℚ) ^ k)
    | none => some base

/-- `Number.parseFloat` model: leading whitespace skipped, optional
sign, then the unsigned literal. -/
def parseFloatQ (s : String) : Option ℚ :=
  match s.toList.dropWhile Char.isWhitespace with
  | '-' :: r => (parseUnsignedQ r).map Neg.neg
  | '+' :: r => parseUnsignedQ r
  | cs => parseUnsignedQ cs

/-- `getNumericAttribute` from `style.ts`. -/
def getNumericAttribute (el : Node) (attributeName : String) (fallback : ℚ) : ℚ :=
  match getAttr el attributeName with
  | none => fallback
  | some raw => if raw = "" then fallback else (parseFloatQ raw).getD fallback

/-- `getNumericPresentationValue` from `style.ts`. -/
def getNumericPresentationValue (el : Node) (anc : List Node) (ctx : StyleContext)
    (property : String) (fallback : ℚ) : ℚ :=
  match getPresentationValue el anc ctx.classStyles property with
  | none => fallback
  | some raw => if raw = "" then fallback else (parseFloatQ raw).getD fallback

/-! ## Path decomposer (`path.ts`) -/

/-- `PathSubpathData` from `path.ts`. -/
structure PathSubpathData where
  index : ℕ
  x : ℚ
  y : ℚ
  width : ℚ
  height : ℚ
  relativePoints : List Pt
  bbox : BoundingBox
  area : ℚ
  windingDirection : Winding
  isHole : Bool
deriving DecidableEq, Repr

/-- `ConvertedPathSubpath` from `path.ts`. -/
structure ConvertedPathSubpath where
  x : ℚ
  y : ℚ
  width : ℚ
  height : ℚ
  relativePoints : List Pt
  isHole : Bool
  windingDirection : Winding
  isClosed : Bool
deriving DecidableEq, Repr

/-- `isClosedSubpath` from `path.ts`.  `Math.hypot(dx, dy) < 0.001` is
rendered over exact rationals as the equivalent squared comparison
`dx² + dy² < 0.001²`. -/
def isClosedSubpath (points : List Pt) : Bool :=
  if points.length < 2 then false
  else
    let first := points.headD (0, 0)
    let last := points.getLastD (0, 0)
    let dx := last.1 - first.1
    let dy := last.2 - first.2
    decide (dx ^ 2 + dy ^ 2 < (1 / 1000) ^ 2)

/-- Ancestor walk of `getPathFillRule`: per ancestor the `fill-rule`
attribute is returned when truthy, and the walk breaks after the first
`svg`-tagged ancestor. -/
def inheritedFillRule : List Node → String
  | [] => "nonzero"
  | current :: rest =>
    let v := (getAttr current "fill-rule").getD ""
    if v ≠ "" then v
    else if current.tag.toLower = "svg" then "nonzero"
    else inheritedFillRule rest

/-- `getPathFillRule` from `path.ts`. -/
def getPathFillRule (el : Node) (anc : List Node) : String :=
  let own := (getAttr el "fill-rule").getD ""
  if own ≠ "" then own else inheritedFillRule anc

/-- `buildSubpathData` from `path.ts`: subpaths with fewer than two
points are dropped, the rest keep their entry index. -/
def buildSubpathData (pathPoints : List (List Pt)) (matrix : Matrix) : List PathSubpathData :=
  pathPoints.enum.filterMap fun iSub =>
    if iSub.2.length < 2 then none
    else
      let transformed := transformPoints iSub.2 matrix
      let xy := transformed.headD (0, 0)
      let relativePoints := transformed.map fun p => (p.1 - xy.1, p.2 - xy.2)
      let wh := dimensionsFromPoints relativePoints
      some
        { index := iSub.1
          x := xy.1
          y := xy.2
          width := wh.1
          height := wh.2
          relativePoints := relativePoints
          bbox := getBoundingBox transformed
          area := getPolygonArea relativePoints
          windingDirection := (getWindingOrder relativePoints).direction
          isHole := false }

/-- Head of `[...subpaths].sort((l, r) => r.area - l.area)`: JS `sort`
is stable, so the head of the descending sort is the first subpath
attaining the maximal area, which this left-to-right scan (replacing the
incumbent only on strictly larger area) computes. -/
def pickLargest : List PathSubpathData → Option PathSubpathData
  | [] => none
  | s :: t => some (t.foldl (fun best c => if c.area > best.area then c else best) s)

/-- `sortedByArea[0]?.index ?? -1` from `markHoleSubpaths`. -/
def largestSubpathIndex (subpaths : List PathSubpathData) : ℤ :=
  match pickLargest subpaths with
  | none => -1
  | some s => (s.index : ℤ)

/-- Candidate-container scan of `markHoleSubpaths`: the subpath is a
hole when some other subpath contains it, has strictly larger area and
has a compatible winding; the source's `break` after the first such
candidate only sets the same flag, so existence suffices. -/
def isHoleByScan (s : PathSubpathData) (subpaths : List PathSubpathData)
    (useEvenOdd : Bool) (largestIdx : ℤ) : Bool :=
  subpaths.any fun candidateContainer =>
    if candidateContainer.index = s.index then false
    else
      let contained := isContainedIn s.bbox candidateContainer.bbox
      let smaller := decide (s.area < candidateContainer.area)
      let oppositeWinding := s.windingDirection ≠ candidateContainer.windingDirection
      let windingIsCompatible :=
        useEvenOdd || decide oppositeWinding ||
          decide ((candidateContainer.index : ℤ) = largestIdx)
      contained && smaller && windingIsCompatible

/-- `markHoleSubpaths` from `path.ts`, as a pure map: the mutation sets
`isHole := true` on exactly the subpaths the scan marks, skipping the
largest-area subpath. -/
def markHoleSubpaths (subpaths : List PathSubpathData) (useEvenOdd : Bool) :
    List PathSubpathData :=
  if subpaths.length < 2 then subpaths
  else
    let largestIdx := largestSubpathIndex subpaths
    subpaths.map fun s =>
      if (s.index : ℤ) = largestIdx then s
      else if isHoleByScan s subpaths useEvenOdd largestIdx then { s with isHole := true }
      else s

/-- `convertPathToSubpaths` from `path.ts`: missing or empty `d` yields
no subpaths; a throwing `pointsOnPath` (modelled by `pathPoints = none`)
is caught and yields no subpaths; so does an empty flattening. -/
def convertPathToSubpaths (el : Node) (anc : List Node) (matrix : Matrix) :
    List ConvertedPathSubpath :=
  match getAttr el "d" with
  | none => []
  | some d =>
    if d = "" then []
    else
      match el.pathPoints with
      | none => []
      | some pathPoints =>
        if pathPoints.isEmpty then []
        else
          let subpaths := buildSubpathData pathPoints matrix
          let fillRule := (getPathFillRule el anc).trim.toLower
          let useEvenOdd := fillRule = "evenodd"
          let marked := markHoleSubpaths subpaths useEvenOdd
          marked.map fun subpath =>
            { x := subpath.x
              y := subpath.y
              width := subpath.width
              height := subpath.height
              relativePoints := subpath.relativePoints
              isHole := subpath.isHole
              windingDirection := subpath.windingDirection
              isClosed := isClosedSubpath subpath.relativePoints }

/-! ## Element synthesizer (`converters.ts`, `convert.ts`, `types.ts`) -/

/-- Output element, flattening the `ExcalidrawElement` union of
`types.ts`: the union tag is `etype`, shape-specific fields (points,
arrowheads, bindings, text metrics) live beside the base fields and are
left at placeholder values by synthesizers that do not set them (the
TS records simply omit them). -/
structure OutEl where
  id : String
  etype : String
  x : ℚ
  y : ℚ
  strokeColor : String
  backgroundColor : String
  fillStyle : String
  strokeWidth : ℚ
  strokeStyle : String
  strokeSharpness : String
  roughness : ℚ
  opacity : ℚ
  width : ℚ
  height : ℚ
  angle : ℚ
  seed : ℤ
  version : ℤ
  versionNonce : ℤ
  isDeleted : Bool
  groupIds : List String
  boundElementIds : Option String
  points : List Pt
  startBinding : Option String
  endBinding : Option String
  startArrowhead : Option String
  endArrowhead : Option String
  text : String
  originalText : String
  fontSize : ℚ
  fontFamily : ℤ
  baseline : ℚ
  textAlign : String
  verticalAlign : String
  lineHeight : ℚ
deriving DecidableEq, Repr

/-- `createBaseElement` from `convert.ts`.  The random id, seed and
version nonce are incidental global state (spec §9 calls for an
injectable deterministic source); they are modelled by fixed values, on
which no claimed property depends. -/
def createBaseElement : OutEl :=
  { id := "id"
    etype := "line"
    x := 0
    y := 0
    strokeColor := "#000000"
    backgroundColor := "transparent"
    fillStyle := "solid"
    strokeWidth := 1
    strokeStyle := "solid"
    strokeSharpness := "sharp"
    roughness := 0
    opacity := 100
    width := 0
    height := 0
    angle := 0
    seed := 0
    version := 1
    versionNonce := 0
    isDeleted := false
    groupIds := []
    boundElementIds := none
    points := []
    startBinding := none
    endBinding := none
    startArrowhead := none
    endArrowhead := none
    text := ""
    originalText := ""
    fontSize := 0
    fontFamily := 0
    baseline := 0
    textAlign := ""
    verticalAlign := ""
    lineHeight := 0 }

/-- Substring containment used for the `includes` checks of
`markerToArrowhead`. -/
def containsSub (s sub : String) : Bool :=
  (s.splitOn sub).length > 1

/-- `markerToArrowhead` from `converters.ts`. -/
def markerToArrowhead (markerValue : Option String) : Option String :=
  match markerValue with
  | none => none
  | some v =>
    if v = "" ∨ v = "none" then none
    else
      let normalized := v.toLower
      if containsSub normalized "dot" || containsSub normalized "circle" then some "dot"
      else if containsSub normalized "bar" then some "bar"
      else some "arrow"

/-- `getArrowheads` from `converters.ts` (start, end). -/
def getArrowheads (el : Node) (anc : List Node) (ctx : StyleContext) :
    Option String × Option String :=
  (markerToArrowhead (getPresentationValue el anc ctx.classStyles "marker-start"),
    markerToArrowhead (getPresentationValue el anc ctx.classStyles "marker-end"))

/-- `shouldUseArrowType` from `converters.ts`. -/
def shouldUseArrowType (el : Node) (anc : List Node) (ctx : StyleContext) : Bool :=
  let ah := getArrowheads el anc ctx
  ah.1.isSome || ah.2.isSome

/-- The element record built by `createLineFromPoints` on a nonempty
point list (the function's non-null result). -/
def lineRecordFromPoints (transformedPoints : List Pt) (el : Node) (anc : List Node)
    (ctx : StyleContext) (closePath : Bool) (groupIds : List String)
    (forceBackgroundColor forceStrokeColor : Option String) : OutEl :=
  let xy := transformedPoints.headD (0, 0)
  let relativePoints := transformedPoints.map fun p => (p.1 - xy.1, p.2 - xy.2)
  let relativePoints :=
    if closePath then relativePoints ++ [((0 : ℚ), (0 : ℚ))] else relativePoints
  let wh := dimensionsFromPoints relativePoints
  let backgroundColor := forceBackgroundColor.getD (getFillColor el anc ctx)
  let strokeColor := forceStrokeColor.getD (getStrokeColor el anc ctx)
  { createBaseElement with
    etype := "line"
    x := xy.1
    y := xy.2
    width := wh.1
    height := wh.2
    points := relativePoints
    backgroundColor := backgroundColor
    strokeColor := strokeColor
    strokeWidth := getNumericAttribute el "stroke-width" 1
    groupIds := groupIds }

/-- `createLineFromPoints` from `converters.ts`; the option-object
fields are passed positionally (`closePath`, `groupIds`,
`forceBackgroundColor`, `forceStrokeColor`). -/
def createLineFromPoints (transformedPoints : List Pt) (el : Node) (anc : List Node)
    (ctx : StyleContext) (closePath : Bool) (groupIds : List String)
    (forceBackgroundColor forceStrokeColor : Option String) : Option OutEl :=
  if transformedPoints.isEmpty then none
  else
    some (lineRecordFromPoints transformedPoints el anc ctx closePath groupIds
      forceBackgroundColor forceStrokeColor)

/-- The element record built by `createArrowFromPoints` on a nonempty
point list (the function's non-null result). -/
def arrowRecordFromPoints (transformedPoints : List Pt) (el : Node) (anc : List Node)
    (ctx : StyleContext) (closePath : Bool) (groupIds : List String) : OutEl :=
  let xy := transformedPoints.headD (0, 0)
  let relativePoints := transformedPoints.map fun p => (p.1 - xy.1, p.2 - xy.2)
  let relativePoints :=
    if closePath then relativePoints ++ [((0 : ℚ), (0 : ℚ))] else relativePoints
  let wh := dimensionsFromPoints relativePoints
  let ah := getArrowheads el anc ctx
  { createBaseElement with
    etype := "arrow"
    x := xy.1
    y := xy.2
    width := wh.1
    height := wh.2
    points := relativePoints
    backgroundColor := "transparent"
    strokeColor := getStrokeColor el anc ctx
    strokeWidth := getNumericPresentationValue el anc ctx "stroke-width" 1
    groupIds := groupIds
    startBinding := none
    endBinding := none
    startArrowhead := ah.1
    endArrowhead := ah.2 }

/-- `createArrowFromPoints` from `converters.ts` (options `closePath`,
`groupIds`). -/
def createArrowFromPoints (transformedPoints : List Pt) (el : Node) (anc : List Node)
    (ctx : StyleContext) (closePath : Bool) (groupIds : List String) : Option OutEl :=
  if transformedPoints.isEmpty then none
  else some (arrowRecordFromPoints transformedPoints el anc ctx closePath groupIds)

/-- The element record built by `createDrawFromPoints` on a point list
with at least two points (the function's non-null result). -/
def drawRecordFromPoints (transformedPoints : List Pt) (el : Node) (anc : List Node)
    (ctx : StyleContext) (groupIds : List String)
    (forceBackgroundColor forceStrokeColor : Option String) : OutEl :=
  let xy := transformedPoints.headD (0, 0)
  let relativePoints := transformedPoints.map fun p => (p.1 - xy.1, p.2 - xy.2)
  let wh := dimensionsFromPoints relativePoints
  let fillColor := forceBackgroundColor.getD (getFillColor el anc ctx)
  let strokeColor := forceStrokeColor.getD (getStrokeColor el anc ctx)
  { createBaseElement with
    etype := "draw"
    x := xy.1
    y := xy.2
    width := wh.1
    height := wh.2
    points := relativePoints
    backgroundColor := fillColor
    strokeColor := strokeColor
    strokeWidth := getNumericAttribute el "stroke-width" 1
    groupIds := groupIds }

/-- `createDrawFromPoints` from `converters.ts` (options `groupIds`,
`forceBackgroundColor`, `forceStrokeColor`); fewer than two points yield
no element. -/
def createDrawFromPoints (transformedPoints : List Pt) (el : Node) (anc : List Node)
    (ctx : StyleContext) (groupIds : List String)
    (forceBackgroundColor forceStrokeColor : Option String) : Option OutEl :=
  if transformedPoints.length < 2 then none
  else
    some (drawRecordFromPoints transformedPoints el anc ctx groupIds
      forceBackgroundColor forceStrokeColor)

/-- `parsePointsAttribute` from `converters.ts`: the global
number-matching regex is modelled by tokenizing on characters that
cannot occur in a numeric literal and parsing each token; equivalent on
well-formed whitespace/comma separated point lists.  Consecutive values
are paired, an odd trailing value is dropped. -/
def pairUpValues : List ℚ → List Pt
  | x :: y :: rest => (x, y) :: pairUpValues rest
  | _ => []

/-- Tokenizing half of `parsePointsAttribute`. -/
def parsePointsAttribute (pointsAttr : String) : List Pt :=
  let isNumChar := fun c : Char =>
    c.isDigit ∨ c = '.' ∨ c = '-' ∨ c = '+' ∨ c = 'e' ∨ c = 'E'
  let tokens := (pointsAttr.split fun c => ¬ isNumChar c).filter fun t => t ≠ ""
  pairUpValues (tokens.filterMap parseFloatQ)

/-- `rectConverter` from `converters.ts`. -/
def rectConverter (el : Node) (anc : List Node) (ctx : StyleContext) : Option OutEl :=
  let x := getNumericAttribute el "x" 0
  let y := getNumericAttribute el "y" 0
  let width := getNumericAttribute el "width" 0
  let height := getNumericAttribute el "height" 0
  if width ≤ 0 ∨ height ≤ 0 then none
  else
    let matrix := getAccumulatedTransform el anc
    let transformedCorners :=
      transformPoints [(x, y), (x + width, y), (x + width, y + height), (x, y + height)] matrix
    let bounds := getBoundingBox transformedCorners
    let isRounded := (getAttr el "rx").isSome || (getAttr el "ry").isSome
    some { createBaseElement with
      etype := "rectangle"
      x := bounds.minX
      y := bounds.minY
      width := bounds.maxX - bounds.minX
      height := bounds.maxY - bounds.minY
      backgroundColor := getFillColor el anc ctx
      strokeColor := getStrokeColor el anc ctx
      strokeWidth := getNumericAttribute el "stroke-width" 1
      strokeSharpness := if isRounded then "round" else "sharp" }

/-- `circleConverter` from `converters.ts`. -/
def circleConverter (el : Node) (anc : List Node) (ctx : StyleContext) : Option OutEl :=
  let cx := getNumericAttribute el "cx" 0
  let cy := getNumericAttribute el "cy" 0
  let radius := getNumericAttribute el "r" 0
  if radius ≤ 0 then none
  else
    let matrix := getAccumulatedTransform el anc
    let transformed :=
      transformPoints
        [(cx - radius, cy), (cx + radius, cy), (cx, cy - radius), (cx, cy + radius)] matrix
    let bounds := getBoundingBox transformed
    some { createBaseElement with
      etype := "ellipse"
      x := bounds.minX
      y := bounds.minY
      width := bounds.maxX - bounds.minX
      height := bounds.maxY - bounds.minY
      backgroundColor := getFillColor el anc ctx
      strokeColor := getStrokeColor el anc ctx
      strokeWidth := getNumericAttribute el "stroke-width" 1 }

/-- `ellipseConverter` from `converters.ts`. -/
def ellipseConverter (el : Node) (anc : List Node) (ctx : StyleContext) : Option OutEl :=
  let cx := getNumericAttribute el "cx" 0
  let cy := getNumericAttribute el "cy" 0
  let radiusX := getNumericAttribute el "rx" 0
  let radiusY := getNumericAttribute el "ry" 0
  if radiusX ≤ 0 ∨ radiusY ≤ 0 then none
  else
    let matrix := getAccumulatedTransform el anc
    let transformed :=
      transformPoints
        [(cx - radiusX, cy), (cx + radiusX, cy), (cx, cy - radiusY), (cx, cy + radiusY)] matrix
    let bounds := getBoundingBox transformed
    some { createBaseElement with
      etype := "ellipse"
      x := bounds.minX
      y := bounds.minY
      width := bounds.maxX - bounds.minX
      height := bounds.maxY - bounds.minY
      backgroundColor := getFillColor el anc ctx
      strokeColor := getStrokeColor el anc ctx
      strokeWidth := getNumericAttribute el "stroke-width" 1 }

/-- `polygonConverter` from `converters.ts`. -/
def polygonConverter (el : Node) (anc : List Node) (ctx : StyleContext) : Option OutEl :=
  let points := parsePointsAttribute ((getAttr el "points").getD "")
  if points.length < 2 then none
  else
    let matrix := getAccumulatedTransform el anc
    let transformedPoints := transformPoints points matrix
    createLineFromPoints transformedPoints el anc ctx true [] none none

/-- `polylineConverter` from `converters.ts`. -/
def polylineConverter (el : Node) (anc : List Node) (ctx : StyleContext) : Option OutEl :=
  let points := parsePointsAttribute ((getAttr el "points").getD "")
  if points.length < 2 then none
  else
    let matrix := getAccumulatedTransform el anc
    let transformedPoints := transformPoints points matrix
    if shouldUseArrowType el anc ctx then
      createArrowFromPoints transformedPoints el anc ctx false []
    else createLineFromPoints transformedPoints el anc ctx false [] none none

/-- `lineConverter` from `converters.ts`. -/
def lineConverter (el : Node) (anc : List Node) (ctx : StyleContext) : Option OutEl :=
  let x1 := getNumericAttribute el "x1" 0
  let y1 := getNumericAttribute el "y1" 0
  let x2 := getNumericAttribute el "x2" 0
  let y2 := getNumericAttribute el "y2" 0
  let matrix := getAccumulatedTransform el anc
  let transformedPoints := transformPoints [(x1, y1), (x2, y2)] matrix
  if shouldUseArrowType el anc ctx then
    createArrowFromPoints transformedPoints el anc ctx false []
  else
    createLineFromPoints transformedPoints el anc ctx false [] (some "transparent") none

/-- The per-subpath emission loop of `pathConverter`, with the mutable
`initialWinding` closure variable made an explicit state argument (`iw`,
whose successor value `iwNext` mirrors the source's conditional
assignment, as does the conditionally overwritten `backgroundColor`);
the source's map-then-filter-nulls is rendered by skipping `none`
results directly. -/
def emitSubpaths (el : Node) (anc : List Node) (ctx : StyleContext)
    (sharedGroupIds : List String) (fillColor strokeColor fillRule : String)
    (hasVisibleFill hasVisibleStroke : Bool) :
    Option Winding → List ConvertedPathSubpath → List OutEl
  | _, [] => []
  | iw, s :: rest =>
    let absolutePoints := s.relativePoints.map fun p => (s.x + p.1, s.y + p.2)
    if !s.isClosed then
      if !hasVisibleStroke then
        emitSubpaths el anc ctx sharedGroupIds fillColor strokeColor fillRule
          hasVisibleFill hasVisibleStroke iw rest
      else if shouldUseArrowType el anc ctx then
        match createArrowFromPoints absolutePoints el anc ctx false sharedGroupIds with
        | none =>
          emitSubpaths el anc ctx sharedGroupIds fillColor strokeColor fillRule
            hasVisibleFill hasVisibleStroke iw rest
        | some e =>
          e :: emitSubpaths el anc ctx sharedGroupIds fillColor strokeColor fillRule
            hasVisibleFill hasVisibleStroke iw rest
      else
        match createLineFromPoints absolutePoints el anc ctx false sharedGroupIds
            (some "transparent") (some strokeColor) with
        | none =>
          emitSubpaths el anc ctx sharedGroupIds fillColor strokeColor fillRule
            hasVisibleFill hasVisibleStroke iw rest
        | some e =>
          e :: emitSubpaths el anc ctx sharedGroupIds fillColor strokeColor fillRule
            hasVisibleFill hasVisibleStroke iw rest
    else if !hasVisibleFill then
      if !hasVisibleStroke then
        emitSubpaths el anc ctx sharedGroupIds fillColor strokeColor fillRule
          hasVisibleFill hasVisibleStroke iw rest
      else
        match createLineFromPoints absolutePoints el anc ctx true sharedGroupIds
            (some "transparent") (some strokeColor) with
        | none =>
          emitSubpaths el anc ctx sharedGroupIds fillColor strokeColor fillRule
            hasVisibleFill hasVisibleStroke iw rest
        | some e =>
          e :: emitSubpaths el anc ctx sharedGroupIds fillColor strokeColor fillRule
            hasVisibleFill hasVisibleStroke iw rest
    else
      let backgroundColor :=
        if fillRule = "nonzero" then
          match iw with
          | none => fillColor
          | some w0 =>
            if s.windingDirection ≠ w0 ∨ s.isHole = true then "transparent" else fillColor
        else if s.isHole = true then "transparent" else fillColor
      let iwNext :=
        if fillRule = "nonzero" then
          match iw with
          | none => some s.windingDirection
          | some w0 => some w0
        else iw
      match createDrawFromPoints absolutePoints el anc ctx sharedGroupIds
          (some backgroundColor) (some strokeColor) with
      | none =>
        emitSubpaths el anc ctx sharedGroupIds fillColor strokeColor fillRule
          hasVisibleFill hasVisibleStroke iwNext rest
      | some draw =>
        (if hasVisibleStroke then draw else { draw with strokeWidth := 0 }) ::
          emitSubpaths el anc ctx sharedGroupIds fillColor strokeColor fillRule
            hasVisibleFill hasVisibleStroke iwNext rest

/-- `pathConverter` from `converters.ts`; `gid` is the injected value of
the `randomId()` call that mints the shared group id. -/
def pathConverter (el : Node) (anc : List Node) (ctx : StyleContext) (gid : String) :
    Option (List OutEl) :=
  let matrix := getAccumulatedTransform el anc
  let convertedSubpaths := convertPathToSubpaths el anc matrix
  if convertedSubpaths.isEmpty then none
  else
    let hasMultipleSubpaths := convertedSubpaths.length > 1
    let sharedGroupIds := if hasMultipleSubpaths then [gid] else []
    let fillColor := getFillColor el anc ctx
    let strokeColor := getStrokeColor el anc ctx
    let strokeWidth := getNumericPresentationValue el anc ctx "stroke-width" 1
    let fillRule := ((getAttr el "fill-rule").getD "nonzero").trim.toLower
    let hasVisibleFill := fillColor ≠ "transparent"
    let hasVisibleStroke := strokeColor ≠ "transparent" ∧ strokeWidth > 0
    some (emitSubpaths el anc ctx sharedGroupIds fillColor strokeColor fillRule
      (decide hasVisibleFill) (decide hasVisibleStroke) none convertedSubpaths)

/-- `getTextContent` from `converters.ts`. -/
def getTextContent (el : Node) : String :=
  let tspans := (descendantsOf el).filter fun n => n.tag = "tspan"
  if tspans.isEmpty then el.textContent.trim
  else
    let lines := (tspans.map fun t => t.textContent.trim).filter fun l => l ≠ ""
    String.intercalate "\n" lines

/-- `getTextAnchorPoint` from `converters.ts`. -/
def getTextAnchorPoint (el : Node) : Pt :=
  match parseFloatQ ((getAttr el "x").getD ""), parseFloatQ ((getAttr el "y").getD "") with
  | some x, some y => (x, y)
  | _, _ =>
    match (descendantsOf el).find? fun n => n.tag = "tspan" with
    | none => (0, 0)
    | some firstTspan =>
      match parseFloatQ ((getAttr firstTspan "x").getD ""),
          parseFloatQ ((getAttr firstTspan "y").getD "") with
      | some x, some y => (x, y)
      | _, _ => (0, 0)

/-- `toTextAlign` from `converters.ts`. -/
def toTextAlign (textAnchor : Option String) : String :=
  if textAnchor = some "middle" then "center"
  else if textAnchor = some "end" then "right"
  else "left"

/-- `toVerticalAlign` from `converters.ts`. -/
def toVerticalAlign (dominantBaseline : Option String) : String :=
  if dominantBaseline = some "middle" ∨ dominantBaseline = some "central" then "middle"
  else "top"

/-- `textConverter` from `converters.ts` (`0.6 = 3/5`, `0.8 = 4/5`,
`1.25 = 5/4`, exact in ℚ as in binary floats). -/
def textConverter (el : Node) (anc : List Node) (ctx : StyleContext) : Option OutEl :=
  let rawText := getTextContent el
  if rawText = "" then none
  else
    let xy := getTextAnchorPoint el
    let fontSize := max 1 (getNumericPresentationValue el anc ctx "font-size" 20)
    let matrix := getAccumulatedTransform el anc
    let t := transformPoint xy matrix
    let lines := rawText.splitOn "\n"
    let maxChars : ℕ := lines.foldl (fun m line => max m line.length) 0
    let lineHeight : ℚ := 5 / 4
    let width := max 1 ((maxChars : ℚ) * fontSize * (3 / 5))
    let height := max 1 ((lines.length : ℚ) * fontSize * lineHeight)
    let textAlign := toTextAlign (getPresentationValue el anc ctx.classStyles "text-anchor")
    let verticalAlign :=
      toVerticalAlign (getPresentationValue el anc ctx.classStyles "dominant-baseline")
    let textX :=
      if textAlign = "center" then t.1 - width / 2
      else if textAlign = "right" then t.1 - width
      else t.1
    let textY := if verticalAlign = "middle" then t.2 - height / 2 else t.2 - fontSize * (4 / 5)
    let textColor := getFillColor el anc ctx
    some { createBaseElement with
      etype := "text"
      x := textX
      y := textY
      width := width
      height := height
      strokeColor := textColor
      backgroundColor := "transparent"
      strokeWidth := 0
      text := rawText
      originalText := rawText
      fontSize := fontSize
      fontFamily := 2
      baseline := fontSize
      textAlign := textAlign
      verticalAlign := verticalAlign
      lineHeight := lineHeight }

/-! ## Conversion orchestrator (`convert.ts`) -/

/-- `SUPPORTED_TAGS` from `convert.ts`. -/
def SUPPORTED_TAGS : List String :=
  ["rect", "circle", "ellipse", "line", "polygon", "polyline", "path", "text"]

/-- `NON_RENDERED_CONTAINER_TAGS` from `convert.ts`, verbatim including
the mixed-case `"clipPath"` entry. -/
def NON_RENDERED_CONTAINER_TAGS : List String :=
  ["defs", "symbol", "clipPath", "mask", "marker", "pattern",
    "lineargradient", "radialgradient", "filter"]

/-- `hasNonRenderedAncestor` from `convert.ts`: walks from the node
itself through every ancestor, lowercasing each tag before the set
lookup. -/
def hasNonRenderedAncestor (el : Node) (anc : List Node) : Bool :=
  (el :: anc).any fun current => NON_RENDERED_CONTAINER_TAGS.contains current.tag.toLower

/-- Per-level check of `isVisuallyHidden`. -/
def nodeHides (current : Node) : Bool :=
  let display := ((getAttr current "display").getD "").trim.toLower
  let visibility := ((getAttr current "visibility").getD "").trim.toLower
  let opacityAttr := ((getAttr current "opacity").getD "").trim
  let styleMap := parseInlineStyle (getAttr current "style")
  let styleDisplay := mget styleMap "display"
  let styleVisibility := mget styleMap "visibility"
  let styleOpacity := mget styleMap "opacity"
  if display = "none" ∨ styleDisplay = some "none" then true
  else if visibility = "hidden" ∨ styleVisibility = some "hidden" then true
  else
    let opacityValue : Option ℚ :=
      match styleOpacity with
      | some so => parseFloatQ so
      | none => if opacityAttr = "" then none else parseFloatQ opacityAttr
    match opacityValue with
    | some v => decide (v ≤ 0)
    | none => false

/-- `isVisuallyHidden` from `convert.ts`: some level of the self-and-
ancestor chain hides the node. -/
def isVisuallyHidden (el : Node) (anc : List Node) : Bool :=
  (el :: anc).any nodeHides

/-- `shouldConvertNode` from `convert.ts`. -/
def shouldConvertNode (el : Node) (anc : List Node) : Bool :=
  !hasNonRenderedAncestor el anc && !isVisuallyHidden el anc

/-- The `svgConverters` dispatch table keyed by lowercased tag. -/
def runConverter (tag : String) (el : Node) (anc : List Node) (ctx : StyleContext)
    (gid : String) : Option (List OutEl) :=
  if tag = "rect" then (rectConverter el anc ctx).map fun e => [e]
  else if tag = "circle" then (circleConverter el anc ctx).map fun e => [e]
  else if tag = "ellipse" then (ellipseConverter el anc ctx).map fun e => [e]
  else if tag = "line" then (lineConverter el anc ctx).map fun e => [e]
  else if tag = "polygon" then (polygonConverter el anc ctx).map fun e => [e]
  else if tag = "polyline" then (polylineConverter el anc ctx).map fun e => [e]
  else if tag = "path" then pathConverter el anc ctx gid
  else if tag = "text" then (textConverter el anc ctx).map fun e => [e]
  else none

/-- `ExcalidrawDocument` envelope from `types.ts` (`type` renamed
`dtype`). -/
structure ExcalidrawDocument where
  dtype : String
  version : ℕ
  source : String
  elements : List OutEl

/-- `convertSvgToExcalidraw` from `convert.ts`, starting from the parsed
`svgRoot`.  `classStyles` stands for the once-built style-context map
(its regex CSS scraping is not under any claim, so theorems quantify
over it) and `gid` for the injected random-group-id source.  XML
selector matching is case-sensitive, so `querySelectorAll` keeps exactly
the descendants whose tag is literally one of the supported tags. -/
def convertSvgToExcalidraw (svgRoot : Node) (classStyles : ClassStyles) (gid : String) :
    ExcalidrawDocument :=
  let ctx : StyleContext := { svgRoot := svgRoot, classStyles := classStyles }
  let nodes := (collectChildren [svgRoot] svgRoot.children).filter fun na =>
    SUPPORTED_TAGS.contains na.1.tag && shouldConvertNode na.1 na.2
  let elements := nodes.flatMap fun na =>
    match runConverter na.1.tag.toLower na.1 na.2 ctx gid with
    | none => []
    | some es => es
  { dtype := "excalidraw"
    version := 2
    source := "https://excalidraw.com"
    elements := elements }

/-! ## Claim C6 — winding under reversal -/

/-- C6 (amended): reversing a finite point sequence negates the raw
shoelace sum, hence flips the reported winding direction whenever that
sum is nonzero (for a zero sum both orders report counter-clockwise);
the reported winding is clockwise exactly when the raw, non-absolute
shoelace sum is positive. -/
theorem c6_winding_reverse (points : List Pt) :
    shoelaceSum points.reverse = -shoelaceSum points ∧
    (shoelaceSum points ≠ 0 →
      (getWindingOrder points.reverse).direction
        = flipWinding (getWindingOrder points).direction) ∧
    ((getWindingOrder points).direction = Winding.clockwise ↔ 0 < shoelaceSum points) := by
  refine ⟨shoelaceSum_reverse points, ?_, ?_⟩
  · intro hne
    rcases lt_or_gt_of_ne hne with hlt | hgt
    · have h1 : ¬ shoelaceSum points > 0 := by linarith
      have h2 : shoelaceSum points.reverse > 0 := by
        rw [shoelaceSum_reverse]; linarith
      simp [getWindingOrder, h1, h2, flipWinding]
    · have h2 : ¬ shoelaceSum points.reverse > 0 := by
        rw [shoelaceSum_reverse]; linarith
      simp [getWindingOrder, hgt, h2, flipWinding]
  · constructor
    · intro hd
      by_contra hng
      simp [getWindingOrder, hng] at hd
    · intro hp
      simp [getWindingOrder, hp]

/-- Witness for C6 at a concrete clockwise square. -/
theorem c6_winding_reverse_witness :
    shoelaceSum [((0 : ℚ), (0 : ℚ)), (0, 1), (1, 1), (1, 0)] ≠ 0 ∧
    (getWindingOrder ([((0 : ℚ), (0 : ℚ)), (0, 1), (1, 1), (1, 0)].reverse)).direction
      = flipWinding (getWindingOrder [((0 : ℚ), (0 : ℚ)), (0, 1), (1, 1), (1, 0)]).direction :=
  ⟨by with_unfolding_all decide,
    (c6_winding_reverse [((0 : ℚ), (0 : ℚ)), (0, 1), (1, 1), (1, 0)]).2.1
      (by with_unfolding_all decide)⟩

/-- C6 counterexample: a degenerate two-point sequence has shoelace sum
zero and reports counter-clockwise in both orders, so reversal does not
flip its reported winding. -/
theorem c6_winding_reverse_cex :
    ¬ ((getWindingOrder ([((0 : ℚ), (0 : ℚ)), (1, 0)].reverse)).direction
        = flipWinding (getWindingOrder [((0 : ℚ), (0 : ℚ)), (1, 0)]).direction) := by
  with_unfolding_all decide

/-! ## Claim C5 — the largest-area subpath is never a hole -/

/-- C5: among subpaths entering hole classification with clear flags (as
`buildSubpathData` produces them), any result subpath carrying the index
of the first-occurring largest-area subpath still has `isHole = false`
after `markHoleSubpaths`. -/
theorem c5_largest_never_hole (subpaths : List PathSubpathData) (useEvenOdd : Bool)
    (hall : ∀ s ∈ subpaths, s.isHole = false) :
    ∀ r ∈ markHoleSubpaths subpaths useEvenOdd,
      (r.index : ℤ) = largestSubpathIndex subpaths → r.isHole = false := by
  intro r hr hidx
  by_cases hlen : subpaths.length < 2
  · rw [markHoleSubpaths, if_pos hlen] at hr
    exact hall r hr
  · rw [markHoleSubpaths, if_neg hlen] at hr
    simp only [List.mem_map] at hr
    obtain ⟨s, hs, heq⟩ := hr
    by_cases hidx2 : (s.index : ℤ) = largestSubpathIndex subpaths
    · rw [if_pos hidx2] at heq
      rw [← heq]
      exact hall s hs
    · rw [if_neg hidx2] at heq
      by_cases hscan :
          isHoleByScan s subpaths useEvenOdd (largestSubpathIndex subpaths) = true
      · rw [if_pos hscan] at heq
        exfalso
        apply hidx2
        have hri : r.index = s.index := by rw [← heq]
        rw [← hri]
        exact hidx
      · rw [if_neg hscan] at heq
        rw [← heq]
        exact hall s hs

/-- Concrete subpath data for the C5 witness: the large outer square. -/
def wsubA : PathSubpathData :=
  { index := 0, x := 0, y := 0, width := 10, height := 10
    relativePoints := [(0, 0), (10, 0), (10, 10), (0, 10), (0, 0)]
    bbox := { minX := 0, minY := 0, maxX := 10, maxY := 10 }
    area := 100, windingDirection := Winding.counterclockwise, isHole := false }

/-- Concrete subpath data for the C5 witness: the small inner square. -/
def wsubB : PathSubpathData :=
  { index := 1, x := 4, y := 4, width := 2, height := 2
    relativePoints := [(0, 0), (2, 0), (2, 2), (0, 2), (0, 0)]
    bbox := { minX := 4, minY := 4, maxX := 6, maxY := 6 }
    area := 4, windingDirection := Winding.counterclockwise, isHole := false }

/-- Witness for C5 on a concrete two-subpath configuration. -/
theorem c5_largest_never_hole_witness :
    wsubA ∈ markHoleSubpaths [wsubA, wsubB] false ∧ wsubA.isHole = false :=
  ⟨by with_unfolding_all decide,
    c5_largest_never_hole [wsubA, wsubB] false (by with_unfolding_all decide) wsubA
      (by with_unfolding_all decide) (by with_unfolding_all decide)⟩

/-! ## Claim C9 — malformed transform / path data recovered locally -/

/-- C9: an absent, empty or unparsable (throwing) transform declaration
yields the identity matrix, and an absent, empty or unparsable `d`
command string yields zero subpaths; both functions are total, so
neither failure escapes to the caller. -/
theorem c9_local_recovery (el : Node) (anc : List Node) (matrix : Matrix) :
    ((getAttr el "transform" = none ∨ getAttr el "transform" = some "" ∨
        el.transformMatrices = none) → getTransformMatrix el = identityM) ∧
    ((getAttr el "d" = none ∨ getAttr el "d" = some "" ∨ el.pathPoints = none) →
      convertPathToSubpaths el anc matrix = []) := by
  constructor
  · intro h
    rcases h with h | h | h
    · simp [getTransformMatrix, h]
    · simp [getTransformMatrix, h]
    · cases hA : getAttr el "transform" with
      | none => simp [getTransformMatrix, hA]
      | some raw =>
        by_cases hraw : raw = ""
        · simp [getTransformMatrix, hA, hraw]
        · simp [getTransformMatrix, hA, hraw, h]
  · intro h
    rcases h with h | h | h
    · simp [convertPathToSubpaths, h]
    · simp [convertPathToSubpaths, h]
    · cases hA : getAttr el "d" with
      | none => simp [convertPathToSubpaths, hA]
      | some raw =>
        by_cases hraw : raw = ""
        · simp [convertPathToSubpaths, hA, hraw]
        · simp [convertPathToSubpaths, hA, hraw, h]

/-- A node whose transform declaration and path data both make the
external parsers throw. -/
def malformedNode : Node :=
  Node.node "path" [("transform", "rotate("), ("d", "Q")] "" none none []

/-- Witness for C9 at a node with malformed transform and path data. -/
theorem c9_local_recovery_witness :
    getTransformMatrix malformedNode = identityM ∧
    convertPathToSubpaths malformedNode [] identityM = [] :=
  ⟨(c9_local_recovery malformedNode [] identityM).1 (Or.inr (Or.inr rfl)),
    (c9_local_recovery malformedNode [] identityM).2 (Or.inr (Or.inr rfl))⟩

/-! ## Claim C8 — degenerate shape dimensions produce no element -/

/-- C8: a non-positive width or height suppresses the rectangle, a
non-positive radius suppresses the circle, and a non-positive radius on
either axis suppresses the ellipse. -/
theorem c8_degenerate_dims (el : Node) (anc : List Node) (ctx : StyleContext) :
    ((getNumericAttribute el "width" 0 ≤ 0 ∨ getNumericAttribute el "height" 0 ≤ 0) →
      rectConverter el anc ctx = none) ∧
    (getNumericAttribute el "r" 0 ≤ 0 → circleConverter el anc ctx = none) ∧
    ((getNumericAttribute el "rx" 0 ≤ 0 ∨ getNumericAttribute el "ry" 0 ≤ 0) →
      ellipseConverter el anc ctx = none) := by
  refine ⟨fun h => ?_, fun h => ?_, fun h => ?_⟩
  · rcases h with h | h
    · simp [rectConverter, h]
    · simp [rectConverter, h]
  · simp [circleConverter, h]
  · rcases h with h | h
    · simp [ellipseConverter, h]
    · simp [ellipseConverter, h]

/-- An empty helper root for style contexts in witnesses. -/
def emptyRootNode : Node := Node.node "svg" [] "" none none []

/-- Style context over the empty root with no class rules. -/
def emptyCtx : StyleContext := { svgRoot := emptyRootNode, classStyles := [] }

/-- A rect with zero width. -/
def zeroRect : Node := Node.node "rect" [("width", "0"), ("height", "5")] "" none none []

/-- A circle with negative radius. -/
def zeroCircle : Node := Node.node "circle" [("r", "-1")] "" none none []

/-- An ellipse with `ry` absent (so it defaults to 0). -/
def zeroEllipse : Node := Node.node "ellipse" [("rx", "4")] "" none none []

/-- Witness for C8 at concrete degenerate shapes. -/
theorem c8_degenerate_dims_witness :
    rectConverter zeroRect [] emptyCtx = none ∧
    circleConverter zeroCircle [] emptyCtx = none ∧
    ellipseConverter zeroEllipse [] emptyCtx = none :=
  ⟨(c8_degenerate_dims zeroRect [] emptyCtx).1 (Or.inl (by with_unfolding_all decide)),
    (c8_degenerate_dims zeroCircle [] emptyCtx).2.1 (by with_unfolding_all decide),
    (c8_degenerate_dims zeroEllipse [] emptyCtx).2.2 (Or.inr (by with_unfolding_all decide))⟩

/-! ## Claim C4 — ancestor cascade order -/

/-- The ancestor cascade as the specification words it (inline style
checked before the direct attribute on each ancestor, stopping at the
root).  Written from the spec's words for comparison with the source's
`getInheritedPresentationValue`. -/
def specCascadeStyleFirst : List Node → String → Option String
  | [], _ => none
  | current :: rest, property =>
    let inline := (getInlineStyleValue current property).getD ""
    if inline ≠ "" then some inline
    else
      let direct := (getAttr current property).getD ""
      if direct ≠ "" then some direct
      else if current.tag.toLower = "svg" then none
      else specCascadeStyleFirst rest property

/-- The ancestor cascade as amended: the direct attribute is checked
before the inline style on each ancestor, stopping at the root.
Written from the amended claim's words for comparison with the source's
`getInheritedPresentationValue`. -/
def specCascadeAttrFirst : List Node → String → Option String
  | [], _ => none
  | current :: rest, property =>
    let direct := (getAttr current property).getD ""
    if direct ≠ "" then some direct
    else
      let inline := (getInlineStyleValue current property).getD ""
      if inline ≠ "" then some inline
      else if current.tag.toLower = "svg" then none
      else specCascadeAttrFirst rest property

/-- A child with no own style, attribute or class for `fill`. -/
def c4Child : Node := Node.node "g" [] "" none none []

/-- A parent with both a `fill` attribute and an inline `fill` style. -/
def c4Parent : Node :=
  Node.node "g" [("fill", "blue"), ("style", "fill: red")] "" none none [c4Child]

/-- Root for the C4 scenario. -/
def c4Root : Node := Node.node "svg" [] "" none none [c4Parent]

/-- C4 counterexample: on an ancestor carrying both an inline style and
a direct attribute for the property, the cascade returns the attribute
value, not the inline-style value the claim predicts. -/
theorem c4_cascade_cex :
    getPresentationValue c4Child [c4Parent, c4Root] [] "fill" = some "blue" ∧
    specCascadeStyleFirst [c4Parent, c4Root] "fill" = some "red" ∧
    (some "blue" : Option String) ≠ some "red" := by
  with_unfolding_all decide

/-- C4 (amended): for a node with no inline-style, direct-attribute or
class-rule match of its own, the cascade walks upward through the
ancestors (stopping at the root), checking each ancestor's direct
attribute first and then its inline style, returning the first truthy
match. -/
theorem c4_cascade_attr_first (el : Node) (anc : List Node) (cs : ClassStyles)
    (property : String)
    (h1 : getInlineStyleValue el property = none)
    (h2 : getAttr el property = none)
    (h3 : getClassStyleValue el cs property = none) :
    getPresentationValue el anc cs property = specCascadeAttrFirst anc property := by
  have hwalk : ∀ (l : List Node),
      getInheritedPresentationValue l property = specCascadeAttrFirst l property := by
    intro l
    induction l with
    | nil => rfl
    | cons current rest ih =>
      rw [getInheritedPresentationValue, specCascadeAttrFirst]
      by_cases hd : ((getAttr current property).getD "") ≠ ""
      · rw [if_pos hd, if_pos hd]
      · rw [if_neg hd, if_neg hd]
        by_cases hi : ((getInlineStyleValue current property).getD "") ≠ ""
        · rw [if_pos hi, if_pos hi]
        · rw [if_neg hi, if_neg hi]
          by_cases hs : current.tag.toLower = "svg"
          · rw [if_pos hs, if_pos hs]
          · rw [if_neg hs, if_neg hs, ih]
  rw [getPresentationValue, h1, h2, h3]
  simp only [Option.none_orElse]
  exact hwalk anc

/-- Witness for C4 (amended) at the concrete two-level tree. -/
theorem c4_cascade_attr_first_witness :
    getPresentationValue c4Child [c4Parent, c4Root] [] "fill"
      = specCascadeAttrFirst [c4Parent, c4Root] "fill" :=
  c4_cascade_attr_first c4Child [c4Parent, c4Root] [] "fill"
    (by with_unfolding_all decide) (by with_unfolding_all decide)
    (by with_unfolding_all decide)

/-! ## Claim C2 — nodes inside defs / clipPath containers -/

/-- The rect nested inside a clipPath for the C2 scenario. -/
def c2Rect : Node := Node.node "rect" [("width", "10"), ("height", "10")] "" none none []

/-- The clipPath container (SVG spells the tag `clipPath`). -/
def c2Clip : Node := Node.node "clipPath" [] "" none none [c2Rect]

/-- Root of the C2 scenario. -/
def c2Root : Node := Node.node "svg" [] "" none none [c2Clip]

/-- C2 evaluated at the failing input: the rect nested inside a
`clipPath` IS synthesized into the output.  `NON_RENDERED_CONTAINER_TAGS`
holds the mixed-case entry `"clipPath"`, but `hasNonRenderedAncestor`
lowercases every tag before the membership test, so a `clipPath`
ancestor can never match and the filter passes the node through. -/
theorem c2_clip_path_geometry_emitted :
    ((convertSvgToExcalidraw c2Root [] "g").elements.map fun e => e.etype) = ["rectangle"] ∧
    hasNonRenderedAncestor c2Rect [c2Clip, c2Root] = false ∧
    NON_RENDERED_CONTAINER_TAGS.contains "clipPath" = true ∧
    ("clipPath".toLower = "clippath" ∧
      NON_RENDERED_CONTAINER_TAGS.contains "clippath" = false) := by
  with_unfolding_all decide

/-! ## Field lemmas for the synthesized records -/

theorem createLineFromPoints_some_fields (pts : List Pt) (el : Node) (anc : List Node)
    (ctx : StyleContext) (cp : Bool) (gids : List String) (fb fs : Option String) (e : OutEl)
    (h : createLineFromPoints pts el anc ctx cp gids fb fs = some e) :
    e.etype = "line" ∧ e.angle = 0 ∧ e.groupIds = gids ∧
      e.backgroundColor = fb.getD (getFillColor el anc ctx) := by
  unfold createLineFromPoints at h
  split at h
  · cases h
  · injection h with h
    subst h
    exact ⟨rfl, rfl, rfl, rfl⟩

theorem createArrowFromPoints_some_fields (pts : List Pt) (el : Node) (anc : List Node)
    (ctx : StyleContext) (cp : Bool) (gids : List String) (e : OutEl)
    (h : createArrowFromPoints pts el anc ctx cp gids = some e) :
    e.etype = "arrow" ∧ e.angle = 0 ∧ e.groupIds = gids ∧
      e.backgroundColor = "transparent" := by
  unfold createArrowFromPoints at h
  split at h
  · cases h
  · injection h with h
    subst h
    exact ⟨rfl, rfl, rfl, rfl⟩

theorem createDrawFromPoints_some_fields (pts : List Pt) (el : Node) (anc : List Node)
    (ctx : StyleContext) (gids : List String) (fb fs : Option String) (e : OutEl)
    (h : createDrawFromPoints pts el anc ctx gids fb fs = some e) :
    e.etype = "draw" ∧ e.angle = 0 ∧ e.groupIds = gids ∧
      e.backgroundColor = fb.getD (getFillColor el anc ctx) := by
  unfold createDrawFromPoints at h
  split at h
  · cases h
  · injection h with h
    subst h
    exact ⟨rfl, rfl, rfl, rfl⟩

theorem strokeWidthZero_fields (e : OutEl) :
    ({ e with strokeWidth := 0 } : OutEl).etype = e.etype ∧
      ({ e with strokeWidth := 0 } : OutEl).angle = e.angle ∧
      ({ e with strokeWidth := 0 } : OutEl).groupIds = e.groupIds ∧
      ({ e with strokeWidth := 0 } : OutEl).backgroundColor = e.backgroundColor :=
  ⟨rfl, rfl, rfl, rfl⟩

/-- Every element emitted by the per-subpath loop carries the shared
group id list and a zero rotation angle. -/
theorem emitSubpaths_mem_fields (el : Node) (anc : List Node) (ctx : StyleContext)
    (gids : List String) (fc sc fr : String) (hvf hvs : Bool) :
    ∀ (iw : Option Winding) (subs : List ConvertedPathSubpath) (e : OutEl),
      e ∈ emitSubpaths el anc ctx gids fc sc fr hvf hvs iw subs →
      e.groupIds = gids ∧ e.angle = 0 := by
  intro iw subs
  induction subs generalizing iw with
  | nil =>
    intro e he
    simp [emitSubpaths] at he
  | cons s rest ih =>
    intro e he
    simp only [emitSubpaths] at he
    split at he
    · -- open subpath branch
      split at he
      · exact ih iw e he
      · split at he
        · -- arrow branch
          split at he
          · exact ih iw e he
          · rcases List.mem_cons.mp he with rfl | hmem
            · rename_i heq
              have hf := createArrowFromPoints_some_fields _ _ _ _ _ _ _ heq
              exact ⟨hf.2.2.1, hf.2.1⟩
            · exact ih iw e hmem
        · -- line branch
          split at he
          · exact ih iw e he
          · rcases List.mem_cons.mp he with rfl | hmem
            · rename_i heq
              have hf := createLineFromPoints_some_fields _ _ _ _ _ _ _ _ _ heq
              exact ⟨hf.2.2.1, hf.2.1⟩
            · exact ih iw e hmem
    · -- closed branch
      split at he
      · -- no visible fill
        split at he
        · exact ih iw e he
        · split at he
          · exact ih iw e he
          · rcases List.mem_cons.mp he with rfl | hmem
            · rename_i heq
              have hf := createLineFromPoints_some_fields _ _ _ _ _ _ _ _ _ heq
              exact ⟨hf.2.2.1, hf.2.1⟩
            · exact ih iw e hmem
      · -- fill branch
        split at he
        · exact ih _ e he
        · rcases List.mem_cons.mp he with rfl | hmem
          · rename_i draw heq
            have hf := createDrawFromPoints_some_fields _ _ _ _ _ _ _ _ heq
            constructor
            · split
              · exact hf.2.2.1
              · exact hf.2.2.1
            · split
              · exact hf.2.1
              · exact hf.2.1
          · exact ih _ e hmem

/-- Unfolding of a successful `pathConverter` run into its emission
loop. -/
theorem pathConverter_some_eq (el : Node) (anc : List Node) (ctx : StyleContext)
    (gid : String) (es : List OutEl) (h : pathConverter el anc ctx gid = some es) :
    es = emitSubpaths el anc ctx
      (if (convertPathToSubpaths el anc (getAccumulatedTransform el anc)).length > 1
        then [gid] else [])
      (getFillColor el anc ctx) (getStrokeColor el anc ctx)
      (((getAttr el "fill-rule").getD "nonzero").trim.toLower)
      (decide (getFillColor el anc ctx ≠ "transparent"))
      (decide (getStrokeColor el anc ctx ≠ "transparent" ∧
        getNumericPresentationValue el anc ctx "stroke-width" 1 > 0))
      none (convertPathToSubpaths el anc (getAccumulatedTransform el anc)) := by
  simp only [pathConverter] at h
  split at h
  · cases h
  · injection h with h
    exact h.symm

/-! ## Claim C7 — shared group ids -/

/-- C7: every element emitted for a path decomposing into two or more
subpaths carries exactly the one shared group id; for a path decomposing
into exactly one subpath every emitted element has an empty group id
list. -/
theorem c7_group_ids (el : Node) (anc : List Node) (ctx : StyleContext) (gid : String)
    (es : List OutEl) (hconv : pathConverter el anc ctx gid = some es) :
    (2 ≤ (convertPathToSubpaths el anc (getAccumulatedTransform el anc)).length →
      ∀ e ∈ es, e.groupIds = [gid]) ∧
    ((convertPathToSubpaths el anc (getAccumulatedTransform el anc)).length = 1 →
      ∀ e ∈ es, e.groupIds = []) := by
  have hes := pathConverter_some_eq el anc ctx gid es hconv
  constructor
  · intro hlen e he
    rw [hes] at he
    have hgt : (convertPathToSubpaths el anc (getAccumulatedTransform el anc)).length > 1 :=
      hlen
    rw [if_pos hgt] at he
    exact (emitSubpaths_mem_fields _ _ _ _ _ _ _ _ _ _ _ e he).1
  · intro hlen e he
    rw [hes] at he
    have hng : ¬ (convertPathToSubpaths el anc (getAccumulatedTransform el anc)).length > 1 := by
      omega
    rw [if_neg hng] at he
    exact (emitSubpaths_mem_fields _ _ _ _ _ _ _ _ _ _ _ e he).1

/-- A path decomposing into two nested closed subpaths of opposite
winding with a visible fill. -/
def twoSubNode : Node :=
  Node.node "path" [("d", "M0 0"), ("fill", "red")] "" none
    (some [[((0 : ℚ), (0 : ℚ)), (10, 0), (10, 10), (0, 10), (0, 0)],
      [((4 : ℚ), (4 : ℚ)), (4, 6), (6, 6), (6, 4), (4, 4)]]) []

/-- Style context for the two-subpath scenario. -/
def twoSubCtx : StyleContext := { svgRoot := twoSubNode, classStyles := [] }

/-- The elements the two-subpath path converts to. -/
def c7es : List OutEl := (pathConverter twoSubNode [] twoSubCtx "g7").getD []

/-- The first of those elements. -/
def c7e0 : OutEl := c7es.headD createBaseElement

/-- Witness for C7: the first emitted element of the concrete
two-subpath path carries exactly the shared group id. -/
theorem c7_group_ids_witness :
    c7e0 ∈ c7es ∧ c7e0.groupIds = ["g7"] :=
  ⟨by with_unfolding_all decide,
    (c7_group_ids twoSubNode [] twoSubCtx "g7" c7es (by with_unfolding_all decide)).1
      (by with_unfolding_all decide) c7e0 (by with_unfolding_all decide)⟩

/-! ## Claim C10 — no synthesizer sets a rotation angle -/

theorem rectConverter_angle (el : Node) (anc : List Node) (ctx : StyleContext) (e : OutEl)
    (h : rectConverter el anc ctx = some e) : e.angle = 0 := by
  simp only [rectConverter] at h
  split at h
  · cases h
  · injection h with h
    subst h
    rfl

theorem circleConverter_angle (el : Node) (anc : List Node) (ctx : StyleContext) (e : OutEl)
    (h : circleConverter el anc ctx = some e) : e.angle = 0 := by
  simp only [circleConverter] at h
  split at h
  · cases h
  · injection h with h
    subst h
    rfl

theorem ellipseConverter_angle (el : Node) (anc : List Node) (ctx : StyleContext) (e : OutEl)
    (h : ellipseConverter el anc ctx = some e) : e.angle = 0 := by
  simp only [ellipseConverter] at h
  split at h
  · cases h
  · injection h with h
    subst h
    rfl

theorem textConverter_angle (el : Node) (anc : List Node) (ctx : StyleContext) (e : OutEl)
    (h : textConverter el anc ctx = some e) : e.angle = 0 := by
  simp only [textConverter] at h
  split at h
  · cases h
  · injection h with h
    subst h
    rfl

theorem polygonConverter_angle (el : Node) (anc : List Node) (ctx : StyleContext) (e : OutEl)
    (h : polygonConverter el anc ctx = some e) : e.angle = 0 := by
  simp only [polygonConverter] at h
  split at h
  · cases h
  · exact (createLineFromPoints_some_fields _ _ _ _ _ _ _ _ _ h).2.1

theorem polylineConverter_angle (el : Node) (anc : List Node) (ctx : StyleContext) (e : OutEl)
    (h : polylineConverter el anc ctx = some e) : e.angle = 0 := by
  simp only [polylineConverter] at h
  split at h
  · cases h
  · split at h
    · exact (createArrowFromPoints_some_fields _ _ _ _ _ _ _ h).2.1
    · exact (createLineFromPoints_some_fields _ _ _ _ _ _ _ _ _ h).2.1

theorem lineConverter_angle (el : Node) (anc : List Node) (ctx : StyleContext) (e : OutEl)
    (h : lineConverter el anc ctx = some e) : e.angle = 0 := by
  simp only [lineConverter] at h
  split at h
  · exact (createArrowFromPoints_some_fields _ _ _ _ _ _ _ h).2.1
  · exact (createLineFromPoints_some_fields _ _ _ _ _ _ _ _ _ h).2.1

theorem runConverter_angle (tag : String) (el : Node) (anc : List Node) (ctx : StyleContext)
    (gid : String) (es : List OutEl) (h : runConverter tag el anc ctx gid = some es) :
    ∀ e ∈ es, e.angle = 0 := by
  intro e he
  unfold runConverter at h
  split_ifs at h
  · rcases Option.map_eq_some'.mp h with ⟨a, ha, hes⟩
    subst hes
    rcases List.mem_singleton.mp he with rfl
    exact rectConverter_angle _ _ _ _ ha
  · rcases Option.map_eq_some'.mp h with ⟨a, ha, hes⟩
    subst hes
    rcases List.mem_singleton.mp he with rfl
    exact circleConverter_angle _ _ _ _ ha
  · rcases Option.map_eq_some'.mp h with ⟨a, ha, hes⟩
    subst hes
    rcases List.mem_singleton.mp he with rfl
    exact ellipseConverter_angle _ _ _ _ ha
  · rcases Option.map_eq_some'.mp h with ⟨a, ha, hes⟩
    subst hes
    rcases List.mem_singleton.mp he with rfl
    exact lineConverter_angle _ _ _ _ ha
  · rcases Option.map_eq_some'.mp h with ⟨a, ha, hes⟩
    subst hes
    rcases List.mem_singleton.mp he with rfl
    exact polygonConverter_angle _ _ _ _ ha
  · rcases Option.map_eq_some'.mp h with ⟨a, ha, hes⟩
    subst hes
    rcases List.mem_singleton.mp he with rfl
    exact polylineConverter_angle _ _ _ _ ha
  · rw [pathConverter_some_eq _ _ _ _ _ h] at he
    exact (emitSubpaths_mem_fields _ _ _ _ _ _ _ _ _ _ _ e he).2
  · rcases Option.map_eq_some'.mp h with ⟨a, ha, hes⟩
    subst hes
    rcases List.mem_singleton.mp he with rfl
    exact textConverter_angle _ _ _ _ ha

/-- C10: every element of the output document has rotation angle 0; no
synthesizer ever sets a non-zero `angle`. -/
theorem c10_angle_zero (svgRoot : Node) (classStyles : ClassStyles) (gid : String) :
    ∀ e ∈ (convertSvgToExcalidraw svgRoot classStyles gid).elements, e.angle = 0 := by
  intro e he
  simp only [convertSvgToExcalidraw] at he
  rw [List.mem_flatMap] at he
  obtain ⟨na, hna, he⟩ := he
  cases hrun : runConverter na.1.tag.toLower na.1 na.2
      { svgRoot := svgRoot, classStyles := classStyles } gid with
  | none =>
    rw [hrun] at he
    cases he
  | some es =>
    rw [hrun] at he
    exact runConverter_angle _ _ _ _ _ _ hrun e he

/-- Concrete document for the C10 witness. -/
def c10Root : Node :=
  Node.node "svg" [] "" none none
    [Node.node "rect" [("width", "2"), ("height", "3")] "" none none []]

/-- Its first output element. -/
def c10e : OutEl := ((convertSvgToExcalidraw c10Root [] "g").elements).headD createBaseElement

/-- Witness for C10 at a concrete one-rect document. -/
theorem c10_angle_zero_witness :
    c10e ∈ (convertSvgToExcalidraw c10Root [] "g").elements ∧ c10e.angle = 0 :=
  ⟨by with_unfolding_all decide,
    c10_angle_zero c10Root [] "g" c10e (by with_unfolding_all decide)⟩

/-! ## Subpath point-count invariants -/

theorem buildSubpathData_relLen (pps : List (List Pt)) (M : Matrix) :
    ∀ m ∈ buildSubpathData pps M, 2 ≤ m.relativePoints.length := by
  intro m hm
  simp only [buildSubpathData, List.mem_filterMap] at hm
  obtain ⟨p, hp, hsome⟩ := hm
  split at hsome
  · cases hsome
  · rename_i hlen
    injection hsome with hsome
    subst hsome
    show 2 ≤ (List.map _ (transformPoints p.2 M)).length
    rw [List.length_map, transformPoints, List.length_map]
    omega

theorem markHoleSubpaths_pres (ss : List PathSubpathData) (eo : Bool)
    (P : List Pt → Prop) (hall : ∀ s ∈ ss, P s.relativePoints) :
    ∀ r ∈ markHoleSubpaths ss eo, P r.relativePoints := by
  intro r hr
  by_cases hlen : ss.length < 2
  · rw [markHoleSubpaths, if_pos hlen] at hr
    exact hall r hr
  · rw [markHoleSubpaths, if_neg hlen] at hr
    simp only [List.mem_map] at hr
    obtain ⟨s, hs, heq⟩ := hr
    have hrel : r.relativePoints = s.relativePoints := by
      rw [← heq]
      split
      · rfl
      · split
        · rfl
        · rfl
    rw [hrel]
    exact hall s hs

theorem convertPathToSubpaths_relLen (el : Node) (anc : List Node) (M : Matrix) :
    ∀ s ∈ convertPathToSubpaths el anc M, 2 ≤ s.relativePoints.length := by
  intro s hs
  unfold convertPathToSubpaths at hs
  split at hs
  · cases hs
  · split at hs
    · cases hs
    · split at hs
      · cases hs
      · split at hs
        · cases hs
        · simp only [List.mem_map] at hs
          obtain ⟨m, hm, heq⟩ := hs
          have h2 := markHoleSubpaths_pres _ _ (fun l => 2 ≤ l.length)
            (buildSubpathData_relLen _ M) m hm
          rw [← heq]
          exact h2

/-! ## Background colors of the emitted FreeDraw elements -/

/-- The background colors of the FreeDraw (`"draw"`) elements of an
output list, in order. -/
def drawFills (out : List OutEl) : List String :=
  (out.filter fun e => e.etype == "draw").map fun e => e.backgroundColor

/-- Expected FreeDraw fills under a non-`nonzero` fill rule: holes are
transparent, everything else keeps the resolved fill. -/
def expectedHoleFills (fillColor : String) (cf : List ConvertedPathSubpath) : List String :=
  cf.map fun s => if s.isHole = true then "transparent" else fillColor

/-- Expected FreeDraw fills for the closed subpaths after the reference
winding `w0` is fixed: transparent exactly when the winding differs from
`w0` or the subpath is a hole. -/
def expectedNonzeroTailFills (fillColor : String) (w0 : Winding)
    (cf : List ConvertedPathSubpath) : List String :=
  cf.map fun s =>
    if s.windingDirection ≠ w0 ∨ s.isHole = true then "transparent" else fillColor

/-- Expected FreeDraw fills over the closed subpaths of a path with
visible fill: under `nonzero` (by own attribute) the first closed
subpath keeps the fill and fixes the reference winding; under any other
fill rule holes are transparent. -/
def expectedDrawFills (fillRule fillColor : String) (cf : List ConvertedPathSubpath) :
    List String :=
  if fillRule = "nonzero" then
    match cf with
    | [] => []
    | c0 :: rest => fillColor :: expectedNonzeroTailFills fillColor c0.windingDirection rest
  else expectedHoleFills fillColor cf

theorem drawFills_cons_of_ne (e : OutEl) (l : List OutEl)
    (h : (e.etype == "draw") = false) : drawFills (e :: l) = drawFills l := by
  simp [drawFills, List.filter_cons, h]

theorem drawFills_cons_of_eq (e : OutEl) (l : List OutEl)
    (h : (e.etype == "draw") = true) :
    drawFills (e :: l) = e.backgroundColor :: drawFills l := by
  simp [drawFills, List.filter_cons, h]

theorem createDrawFromPoints_eq_some (pts : List Pt) (el : Node) (anc : List Node)
    (ctx : StyleContext) (gids : List String) (fb fs : Option String)
    (h : ¬ pts.length < 2) :
    createDrawFromPoints pts el anc ctx gids fb fs
      = some (drawRecordFromPoints pts el anc ctx gids fb fs) := by
  unfold createDrawFromPoints
  rw [if_neg h]

theorem emit_drawFills_other (el : Node) (anc : List Node) (ctx : StyleContext)
    (gids : List String) (fc sc fr : String) (hvs : Bool) (h_fr : fr ≠ "nonzero") :
    ∀ (subs : List ConvertedPathSubpath) (iw : Option Winding),
      (∀ s ∈ subs, 2 ≤ s.relativePoints.length) →
      drawFills (emitSubpaths el anc ctx gids fc sc fr true hvs iw subs)
        = expectedHoleFills fc (subs.filter fun s => s.isClosed) := by
  intro subs
  induction subs with
  | nil =>
    intro iw hpts
    simp [emitSubpaths, drawFills, expectedHoleFills]
  | cons s rest ih =>
    intro iw hpts
    have hs2 : 2 ≤ s.relativePoints.length := hpts s (by simp)
    have hrest : ∀ t ∈ rest, 2 ≤ t.relativePoints.length := fun t ht => hpts t (by simp [ht])
    cases hc : s.isClosed with
    | false =>
      simp only [emitSubpaths, List.filter_cons]
      rw [if_pos (show (!s.isClosed) = true by simp [hc])]
      rw [if_neg (show ¬ s.isClosed = true by simp [hc])]
      split
      · exact ih iw hrest
      · split
        · split
          · exact ih iw hrest
          · rename_i e heq
            have hf := createArrowFromPoints_some_fields _ _ _ _ _ _ _ heq
            rw [drawFills_cons_of_ne e _ (by simp [hf.1])]
            exact ih iw hrest
        · split
          · exact ih iw hrest
          · rename_i e heq
            have hf := createLineFromPoints_some_fields _ _ _ _ _ _ _ _ _ heq
            rw [drawFills_cons_of_ne e _ (by simp [hf.1])]
            exact ih iw hrest
    | true =>
      have habs : ¬ (List.map (fun p => (s.x + p.1, s.y + p.2)) s.relativePoints).length < 2 := by
        rw [List.length_map]
        omega
      simp only [emitSubpaths, List.filter_cons]
      rw [if_neg (show ¬ (!s.isClosed) = true by simp [hc])]
      rw [if_neg (show ¬ (!(true : Bool)) = true by simp)]
      rw [if_pos (show s.isClosed = true from hc)]
      rw [if_neg h_fr, if_neg h_fr]
      simp only [expectedHoleFills, List.map_cons]
      split
      · rename_i heq
        rw [createDrawFromPoints_eq_some _ _ _ _ _ _ _ habs] at heq
        cases heq
      · rename_i draw heq
        rw [createDrawFromPoints_eq_some _ _ _ _ _ _ _ habs] at heq
        injection heq with heq
        subst heq
        rw [drawFills_cons_of_eq _ _ (by split <;> rfl)]
        have hbg :
            (if hvs = true then
                drawRecordFromPoints
                  (List.map (fun p => (s.x + p.1, s.y + p.2)) s.relativePoints) el anc ctx gids
                  (some (if s.isHole = true then "transparent" else fc)) (some sc)
              else
                { drawRecordFromPoints
                    (List.map (fun p => (s.x + p.1, s.y + p.2)) s.relativePoints) el anc ctx gids
                    (some (if s.isHole = true then "transparent" else fc)) (some sc) with
                  strokeWidth := 0 }).backgroundColor
              = (if s.isHole = true then "transparent" else fc) := by
          split <;> rfl
        rw [hbg, ih iw hrest]
        simp [expectedHoleFills]

theorem emit_drawFills_nonzero_some (el : Node) (anc : List Node) (ctx : StyleContext)
    (gids : List String) (fc sc fr : String) (hvs : Bool) (h_fr : fr = "nonzero") :
    ∀ (subs : List ConvertedPathSubpath) (w0 : Winding),
      (∀ s ∈ subs, 2 ≤ s.relativePoints.length) →
      drawFills (emitSubpaths el anc ctx gids fc sc fr true hvs (some w0) subs)
        = expectedNonzeroTailFills fc w0 (subs.filter fun s => s.isClosed) := by
  intro subs
  induction subs with
  | nil =>
    intro w0 hpts
    simp [emitSubpaths, drawFills, expectedNonzeroTailFills]
  | cons s rest ih =>
    intro w0 hpts
    have hs2 : 2 ≤ s.relativePoints.length := hpts s (by simp)
    have hrest : ∀ t ∈ rest, 2 ≤ t.relativePoints.length := fun t ht => hpts t (by simp [ht])
    cases hc : s.isClosed with
    | false =>
      simp only [emitSubpaths, List.filter_cons]
      rw [if_pos (show (!s.isClosed) = true by simp [hc])]
      rw [if_neg (show ¬ s.isClosed = true by simp [hc])]
      split
      · exact ih w0 hrest
      · split
        · split
          · exact ih w0 hrest
          · rename_i e heq
            have hf := createArrowFromPoints_some_fields _ _ _ _ _ _ _ heq
            rw [drawFills_cons_of_ne e _ (by simp [hf.1])]
            exact ih w0 hrest
        · split
          · exact ih w0 hrest
          · rename_i e heq
            have hf := createLineFromPoints_some_fields _ _ _ _ _ _ _ _ _ heq
            rw [drawFills_cons_of_ne e _ (by simp [hf.1])]
            exact ih w0 hrest
    | true =>
      have habs : ¬ (List.map (fun p => (s.x + p.1, s.y + p.2)) s.relativePoints).length < 2 := by
        rw [List.length_map]
        omega
      simp only [emitSubpaths, List.filter_cons]
      rw [if_neg (show ¬ (!s.isClosed) = true by simp [hc])]
      rw [if_neg (show ¬ (!(true : Bool)) = true by simp)]
      rw [if_pos (show s.isClosed = true from hc)]
      rw [if_pos h_fr, if_pos h_fr]
      simp only [expectedNonzeroTailFills, List.map_cons]
      split
      · rename_i heq
        rw [createDrawFromPoints_eq_some _ _ _ _ _ _ _ habs] at heq
        cases heq
      · rename_i draw heq
        rw [createDrawFromPoints_eq_some _ _ _ _ _ _ _ habs] at heq
        injection heq with heq
        subst heq
        rw [drawFills_cons_of_eq _ _ (by split <;> rfl)]
        have hbg :
            (if hvs = true then
                drawRecordFromPoints
                  (List.map (fun p => (s.x + p.1, s.y + p.2)) s.relativePoints) el anc ctx gids
                  (some (if s.windingDirection ≠ w0 ∨ s.isHole = true then "transparent"
                    else fc)) (some sc)
              else
                { drawRecordFromPoints
                    (List.map (fun p => (s.x + p.1, s.y + p.2)) s.relativePoints) el anc ctx gids
                    (some (if s.windingDirection ≠ w0 ∨ s.isHole = true then "transparent"
                      else fc)) (some sc) with
                  strokeWidth := 0 }).backgroundColor
              = (if s.windingDirection ≠ w0 ∨ s.isHole = true then "transparent" else fc) := by
          split <;> rfl
        rw [hbg, ih w0 hrest]
        simp [expectedNonzeroTailFills]

theorem emit_drawFills_nonzero_none (el : Node) (anc : List Node) (ctx : StyleContext)
    (gids : List String) (fc sc fr : String) (hvs : Bool) (h_fr : fr = "nonzero") :
    ∀ (subs : List ConvertedPathSubpath),
      (∀ s ∈ subs, 2 ≤ s.relativePoints.length) →
      drawFills (emitSubpaths el anc ctx gids fc sc fr true hvs none subs)
        = (match subs.filter fun s => s.isClosed with
          | [] => []
          | c0 :: cf => fc :: expectedNonzeroTailFills fc c0.windingDirection cf) := by
  intro subs
  induction subs with
  | nil =>
    intro hpts
    simp [emitSubpaths, drawFills]
  | cons s rest ih =>
    intro hpts
    have hs2 : 2 ≤ s.relativePoints.length := hpts s (by simp)
    have hrest : ∀ t ∈ rest, 2 ≤ t.relativePoints.length := fun t ht => hpts t (by simp [ht])
    cases hc : s.isClosed with
    | false =>
      simp only [emitSubpaths, List.filter_cons]
      rw [if_pos (show (!s.isClosed) = true by simp [hc])]
      rw [if_neg (show ¬ s.isClosed = true by simp [hc])]
      split
      · exact ih hrest
      · split
        · split
          · exact ih hrest
          · rename_i e heq
            have hf := createArrowFromPoints_some_fields _ _ _ _ _ _ _ heq
            rw [drawFills_cons_of_ne e _ (by simp [hf.1])]
            exact ih hrest
        · split
          · exact ih hrest
          · rename_i e heq
            have hf := createLineFromPoints_some_fields _ _ _ _ _ _ _ _ _ heq
            rw [drawFills_cons_of_ne e _ (by simp [hf.1])]
            exact ih hrest
    | true =>
      have habs : ¬ (List.map (fun p => (s.x + p.1, s.y + p.2)) s.relativePoints).length < 2 := by
        rw [List.length_map]
        omega
      simp only [emitSubpaths, List.filter_cons]
      rw [if_neg (show ¬ (!s.isClosed) = true by simp [hc])]
      rw [if_neg (show ¬ (!(true : Bool)) = true by simp)]
      rw [if_pos (show s.isClosed = true from hc)]
      rw [if_pos h_fr, if_pos h_fr]
      split
      · rename_i heq
        rw [createDrawFromPoints_eq_some _ _ _ _ _ _ _ habs] at heq
        cases heq
      · rename_i draw heq
        rw [createDrawFromPoints_eq_some _ _ _ _ _ _ _ habs] at heq
        injection heq with heq
        subst heq
        rw [drawFills_cons_of_eq _ _ (by split <;> rfl)]
        have hbg :
            (if hvs = true then
                drawRecordFromPoints
                  (List.map (fun p => (s.x + p.1, s.y + p.2)) s.relativePoints) el anc ctx gids
                  (some fc) (some sc)
              else
                { drawRecordFromPoints
                    (List.map (fun p => (s.x + p.1, s.y + p.2)) s.relativePoints) el anc ctx gids
                    (some fc) (some sc) with
                  strokeWidth := 0 }).backgroundColor = fc := by
          split <;> rfl
        rw [hbg,
          emit_drawFills_nonzero_some el anc ctx gids fc sc fr hvs h_fr rest
            s.windingDirection hrest]

/-! ## Claim C1 — FreeDraw fill colors -/

/-- C1 (amended): for a path with visible resolved fill, the FreeDraw
fills follow `expectedDrawFills` over the closed subpaths: under a
`nonzero` own fill-rule attribute the first closed subpath always keeps
the resolved fill (even when marked a hole) and fixes the reference
winding, each later closed subpath rendering transparent exactly when
its winding differs from that reference or it was marked a hole; under
any other fill rule (such as `evenodd`) exactly the subpaths marked
holes render transparent. -/
theorem c1_draw_fill_rule (el : Node) (anc : List Node) (ctx : StyleContext) (gid : String)
    (es : List OutEl) (hconv : pathConverter el anc ctx gid = some es)
    (hfill : getFillColor el anc ctx ≠ "transparent") :
    drawFills es
      = expectedDrawFills (((getAttr el "fill-rule").getD "nonzero").trim.toLower)
          (getFillColor el anc ctx)
          ((convertPathToSubpaths el anc (getAccumulatedTransform el anc)).filter
            fun s => s.isClosed) := by
  have hes := pathConverter_some_eq el anc ctx gid es hconv
  have hd : decide (getFillColor el anc ctx ≠ "transparent") = true := decide_eq_true hfill
  rw [hd] at hes
  subst hes
  have hpts := convertPathToSubpaths_relLen el anc (getAccumulatedTransform el anc)
  by_cases hnz : ((getAttr el "fill-rule").getD "nonzero").trim.toLower = "nonzero"
  · rw [emit_drawFills_nonzero_none el anc ctx _ _ _ _ _ hnz _ hpts]
    rw [expectedDrawFills.eq_def, if_pos hnz]
  · rw [emit_drawFills_other el anc ctx _ _ _ _ _ hnz _ none hpts]
    rw [expectedDrawFills.eq_def, if_neg hnz]

/-- The elements of the two-subpath path, for the C1 witness. -/
def c1es : List OutEl := (pathConverter twoSubNode [] twoSubCtx "g1w").getD []

/-- Witness for C1 at the concrete nested two-subpath path. -/
theorem c1_draw_fill_rule_witness :
    drawFills c1es
      = expectedDrawFills (((getAttr twoSubNode "fill-rule").getD "nonzero").trim.toLower)
          (getFillColor twoSubNode [] twoSubCtx)
          ((convertPathToSubpaths twoSubNode [] (getAccumulatedTransform twoSubNode [])).filter
            fun s => s.isClosed) :=
  c1_draw_fill_rule twoSubNode [] twoSubCtx "g1w" c1es (by with_unfolding_all decide)
    (by with_unfolding_all decide)

/-- A path whose first subpath is open and largest while its second,
closed subpath is classified a hole. -/
def cexPathNode : Node :=
  Node.node "path" [("d", "M0 0"), ("fill", "red")] "" none
    (some [[((0 : ℚ), (0 : ℚ)), (10, 0), (10, 10), (0, 10)],
      [((4 : ℚ), (4 : ℚ)), (6, 4), (6, 6), (4, 6), (4, 4)]]) []

/-- Style context for that path. -/
def cexPathCtx : StyleContext := { svgRoot := cexPathNode, classStyles := [] }

/-- C1 counterexample: the path's single closed subpath has visible
resolved fill, the fill rule in effect is `nonzero`, and the subpath is
marked a hole, yet its emitted FreeDraw element keeps the resolved fill
color `"red"` instead of the transparent fill the claim requires: the
first closed subpath only establishes the reference winding and is never
checked for holes. -/
theorem c1_draw_fill_rule_cex :
    ((convertPathToSubpaths cexPathNode [] (getAccumulatedTransform cexPathNode [])).map
        fun s => (s.isClosed, s.isHole)) = [(false, false), (true, true)] ∧
    getFillColor cexPathNode [] cexPathCtx = "red" ∧
    ((getAttr cexPathNode "fill-rule").getD "nonzero").trim.toLower = "nonzero" ∧
    (pathConverter cexPathNode [] cexPathCtx "g1").map
        (fun es => es.map fun e => (e.etype, e.backgroundColor))
      = some [("draw", "red")] := by
  with_unfolding_all decide

theorem createLineFromPoints_eq_some (pts : List Pt) (el : Node) (anc : List Node)
    (ctx : StyleContext) (cp : Bool) (gids : List String) (fb fs : Option String)
    (h : pts.isEmpty = false) :
    createLineFromPoints pts el anc ctx cp gids fb fs
      = some (lineRecordFromPoints pts el anc ctx cp gids fb fs) := by
  unfold createLineFromPoints
  rw [if_neg (by simp [h])]

theorem createArrowFromPoints_eq_some (pts : List Pt) (el : Node) (anc : List Node)
    (ctx : StyleContext) (cp : Bool) (gids : List String)
    (h : pts.isEmpty = false) :
    createArrowFromPoints pts el anc ctx cp gids
      = some (arrowRecordFromPoints pts el anc ctx cp gids) := by
  unfold createArrowFromPoints
  rw [if_neg (by simp [h])]

/-- The emission loop with exactly the arguments `pathConverter` passes
it (resolved colors, own fill-rule attribute, visibility booleans,
shared group ids). -/
def pathConverterEmit (el : Node) (anc : List Node) (ctx : StyleContext) (gid : String)
    (iw : Option Winding) (subs : List ConvertedPathSubpath) : List OutEl :=
  emitSubpaths el anc ctx
    (if (convertPathToSubpaths el anc (getAccumulatedTransform el anc)).length > 1
      then [gid] else [])
    (getFillColor el anc ctx) (getStrokeColor el anc ctx)
    (((getAttr el "fill-rule").getD "nonzero").trim.toLower)
    (decide (getFillColor el anc ctx ≠ "transparent"))
    (decide (getStrokeColor el anc ctx ≠ "transparent" ∧
      getNumericPresentationValue el anc ctx "stroke-width" 1 > 0)) iw subs

theorem pathConverter_emit_eq (el : Node) (anc : List Node) (ctx : StyleContext)
    (gid : String) (es : List OutEl) (h : pathConverter el anc ctx gid = some es) :
    es = pathConverterEmit el anc ctx gid none
      (convertPathToSubpaths el anc (getAccumulatedTransform el anc)) :=
  pathConverter_some_eq el anc ctx gid es h

/-! ## Claim C3 — open subpaths -/

/-- C3 (amended): within a path's emission, an open subpath contributes
an output element iff the resolved stroke color is not transparent AND
the resolved stroke width is positive (the code's `hasVisibleStroke`);
when it contributes and no arrowhead markers are present, the
contribution is a single Line element with transparent fill. -/
theorem c3_open_subpath (el : Node) (anc : List Node) (ctx : StyleContext) (gid : String)
    (iw : Option Winding) (s : ConvertedPathSubpath) (rest : List ConvertedPathSubpath)
    (hmem : s ∈ convertPathToSubpaths el anc (getAccumulatedTransform el anc))
    (hopen : s.isClosed = false) :
    ∃ contribution,
      pathConverterEmit el anc ctx gid iw (s :: rest)
        = contribution ++ pathConverterEmit el anc ctx gid iw rest ∧
      (contribution ≠ [] ↔ (getStrokeColor el anc ctx ≠ "transparent" ∧
        0 < getNumericPresentationValue el anc ctx "stroke-width" 1)) ∧
      (shouldUseArrowType el anc ctx = false →
        ∀ e ∈ contribution, e.etype = "line" ∧ e.backgroundColor = "transparent") := by
  have hs2 : 2 ≤ s.relativePoints.length :=
    convertPathToSubpaths_relLen el anc (getAccumulatedTransform el anc) s hmem
  have habs : (List.map (fun p => (s.x + p.1, s.y + p.2)) s.relativePoints).isEmpty = false := by
    cases hrp : s.relativePoints with
    | nil => rw [hrp] at hs2; simp at hs2
    | cons a t => simp
  cases hvs : decide (getStrokeColor el anc ctx ≠ "transparent" ∧
      getNumericPresentationValue el anc ctx "stroke-width" 1 > 0) with
  | false =>
    refine ⟨[], ?_, ?_, ?_⟩
    · unfold pathConverterEmit
      rw [hvs]
      simp only [emitSubpaths]
      rw [if_pos (show (!s.isClosed) = true by simp [hopen])]
      rw [if_pos (show (!(false : Bool)) = true by simp)]
      rfl
    · simp only [ne_eq, not_true_eq_false, false_iff]
      exact of_decide_eq_false hvs
    · intro _ e he
      cases he
  | true =>
    have hprop := of_decide_eq_true hvs
    cases harr : shouldUseArrowType el anc ctx with
    | true =>
      refine ⟨[arrowRecordFromPoints
        (List.map (fun p => (s.x + p.1, s.y + p.2)) s.relativePoints) el anc ctx false
        (if (convertPathToSubpaths el anc (getAccumulatedTransform el anc)).length > 1
          then [gid] else [])], ?_, ?_, ?_⟩
      · unfold pathConverterEmit
        rw [hvs]
        simp only [emitSubpaths]
        rw [if_pos (show (!s.isClosed) = true by simp [hopen])]
        rw [if_neg (show ¬ (!(true : Bool)) = true by simp)]
        rw [if_pos harr]
        rw [createArrowFromPoints_eq_some _ _ _ _ _ _ habs]
        rfl
      · exact ⟨fun _ => hprop, fun _ => by simp⟩
      · intro hcontra e he
        exact absurd hcontra (by decide)
    | false =>
      refine ⟨[lineRecordFromPoints
        (List.map (fun p => (s.x + p.1, s.y + p.2)) s.relativePoints) el anc ctx false
        (if (convertPathToSubpaths el anc (getAccumulatedTransform el anc)).length > 1
          then [gid] else [])
        (some "transparent") (some (getStrokeColor el anc ctx))], ?_, ?_, ?_⟩
      · unfold pathConverterEmit
        rw [hvs]
        simp only [emitSubpaths]
        rw [if_pos (show (!s.isClosed) = true by simp [hopen])]
        rw [if_neg (show ¬ (!(true : Bool)) = true by simp)]
        rw [if_neg (show ¬ shouldUseArrowType el anc ctx = true by simp [harr])]
        rw [createLineFromPoints_eq_some _ _ _ _ _ _ _ _ habs]
        rfl
      · constructor
        · intro _
          exact hprop
        · intro _
          simp
      · intro _ e he
        rcases List.mem_singleton.mp he with rfl
        exact ⟨rfl, rfl⟩

/-- An open path with a visible stroke of default width. -/
def c3Node : Node :=
  Node.node "path" [("d", "M0 0"), ("stroke", "red")] "" none
    (some [[((0 : ℚ), (0 : ℚ)), (5, 0)]]) []

/-- Style context for the open path. -/
def c3Ctx : StyleContext := { svgRoot := c3Node, classStyles := [] }

/-- The single converted subpath of `c3Node`. -/
def c3Sub : ConvertedPathSubpath :=
  { x := 0, y := 0, width := 5, height := 0, relativePoints := [(0, 0), (5, 0)]
    isHole := false, windingDirection := Winding.counterclockwise, isClosed := false }

/-- Witness for C3 at the concrete open stroked path. -/
theorem c3_open_subpath_witness :
    ∃ contribution,
      pathConverterEmit c3Node [] c3Ctx "g3" none [c3Sub]
        = contribution ++ pathConverterEmit c3Node [] c3Ctx "g3" none [] ∧
      (contribution ≠ [] ↔ (getStrokeColor c3Node [] c3Ctx ≠ "transparent" ∧
        0 < getNumericPresentationValue c3Node [] c3Ctx "stroke-width" 1)) ∧
      (shouldUseArrowType c3Node [] c3Ctx = false →
        ∀ e ∈ contribution, e.etype = "line" ∧ e.backgroundColor = "transparent") :=
  c3_open_subpath c3Node [] c3Ctx "g3" none c3Sub []
    (by with_unfolding_all decide) (by with_unfolding_all decide)

/-- An open path whose stroke color is visible but whose stroke width is
declared 0. -/
def c3CexNode : Node :=
  Node.node "path" [("d", "M0 0"), ("stroke", "red"), ("stroke-width", "0")] "" none
    (some [[((0 : ℚ), (0 : ℚ)), (5, 0)]]) []

/-- Style context for that path. -/
def c3CexCtx : StyleContext := { svgRoot := c3CexNode, classStyles := [] }

/-- C3 counterexample: the open subpath's resolved stroke color is
`"red"` (not transparent), yet the path converter emits no element
because the resolved stroke width is 0 — emission also requires a
positive stroke width. -/
theorem c3_open_subpath_cex :
    getStrokeColor c3CexNode [] c3CexCtx = "red" ∧
    ((convertPathToSubpaths c3CexNode [] (getAccumulatedTransform c3CexNode [])).map
      fun s => s.isClosed) = [false] ∧
    pathConverter c3CexNode [] c3CexCtx "g" = some [] := by
  with_unfolding_all decide
